import Mathlib

/-!
# Verification of the batchismo-core supervisor/agent runtime

Shallow embedding of the parts of the source relevant to the frozen claims:

* `crates/bat-types/src/policy.rs` — the path-policy engine
  (`PathPolicy::allows`, `check_access`);
* `crates/bat-agent/src/agent_loop.rs` — the tool-execution loop with the
  stuck-agent circuit breaker (`execute_tools`, `ERROR_REPEAT_THRESHOLD`);
* `crates/bat-agent/src/tools/mod.rs` — `ToolRegistry` construction and
  dispatch;
* `crates/bat-agent/src/main.rs` — the order in which the agent emits
  events on the IPC pipe;
* `crates/bat-gateway/src/db.rs` — the SQLite-backed store (sessions,
  messages, observations, subagent rows), modelled as lists of rows;
* `crates/bat-gateway/src/lib.rs` — `Gateway::delete_session`, the
  supervisor turn-runner event loop, and the subagent scheduler completion
  handler;
* `crates/bat-gateway/src/memory.rs` — workspace memory-file operations.

Rust machine integers are modelled as `Int`/`Nat` (none of the claims
exercises overflow), `Uuid` as `Nat`, timestamps as `Int` seconds, and the
SQLite tables as association lists of row structures.
-/

namespace Batchismo

/-! ## Paths

A Rust `std::path::Path` is modelled by its component list, as produced by
`Path::components()`: a root marker plus named components.  The Windows
extended-length prefix `\\?\` (a `Prefix` component in Rust) is modelled by
the `verbatim` flag, which is what `strip_win_prefix` removes.  `.` and `..`
segments, when present, behave as ordinary named components for both
`starts_with` and `parent`, so they are represented as `name` components. -/

inductive PComp
  | root
  | name (s : String)
deriving DecidableEq, Repr

/-- A path: whether its textual form carries the `\\?\` extended-length
prefix, plus its components in order. -/
structure RPath where
  verbatim : Bool
  comps : List PComp
deriving DecidableEq, Repr

/-- `strip_win_prefix` from `policy.rs`: strip the `\\?\` prefix when
present, otherwise return the path unchanged. -/
def strip_win_prefix (p : RPath) : RPath :=
  { p with verbatim := false }

/-- Lowercasing a component (Rust lowercases the whole path string;
separators are unaffected, so this acts per component). -/
def PComp.toLower : PComp → PComp
  | .root => .root
  | .name s => .name s.toLower

/-- `normalize` from `policy.rs`: strip the `\\?\` prefix and lowercase on
Windows (`cfg!(windows)` is the `windows` parameter). -/
def normalize (windows : Bool) (p : RPath) : RPath :=
  let stripped := strip_win_prefix p
  if windows then
    { stripped with comps := stripped.comps.map PComp.toLower }
  else
    stripped

/-- Rust `Path::starts_with`: component-wise prefix test (the prefix
component, i.e. the `verbatim` flag, must agree as well). -/
def rstarts_with (t base : RPath) : Bool :=
  t.verbatim == base.verbatim && decide (base.comps <+: t.comps)

/-- Rust `Path::parent`: drop the last named component; `None` when the path
is empty or consists only of a root/prefix. -/
def rparent (p : RPath) : Option RPath :=
  match p.comps.getLast? with
  | some (.name _) => some { p with comps := p.comps.dropLast }
  | _ => none

/-! ## Path policies (`crates/bat-types/src/policy.rs`) -/

inductive AccessLevel
  | readOnly
  | readWrite
  | writeOnly
deriving DecidableEq, Repr

structure PathPolicy where
  path : RPath
  access : AccessLevel
  recursive : Bool
  description : Option String
deriving DecidableEq, Repr

/-- `PathPolicy::allows` from `policy.rs` lines 41–58.  The `windows`
parameter stands for `cfg!(windows)`. -/
def PathPolicy.allows (self : PathPolicy) (windows : Bool) (target : RPath)
    (write : Bool) : Bool :=
  let target := normalize windows target
  let policy_path := normalize windows self.path
  let matched :=
    if self.recursive then rstarts_with target policy_path
    else rparent target == some policy_path
  if !matched then false
  else
    match self.access, write with
    | .readWrite, _ => true
    | .readOnly, false => true
    | .writeOnly, true => true
    | _, _ => false

/-- `check_access` from `policy.rs` lines 62–64: any policy in the list
allowing the target grants access. -/
def check_access (windows : Bool) (policies : List PathPolicy) (target : RPath)
    (write : Bool) : Bool :=
  policies.any (fun p => p.allows windows target write)

/-! Spec-side restatement of the `allows` semantics, written from the
spec's words ("`allows(target, write)` is true iff the normalized target
starts_with the normalized policy path (or equals its parent when
non-recursive) AND the requested direction is permitted by the access
level"), to be compared with the embedded code. -/

/-- Direction check as the spec words it: ReadWrite permits both directions,
ReadOnly permits only read, WriteOnly permits only write. -/
def direction_permitted (access : AccessLevel) (write : Bool) : Prop :=
  match access with
  | .readWrite => True
  | .readOnly => write = false
  | .writeOnly => write = true

/-- The spec's description of a policy allowing a target. -/
def allows_spec (windows : Bool) (p : PathPolicy) (target : RPath)
    (write : Bool) : Prop :=
  ((p.recursive = true ∧
      rstarts_with (normalize windows target) (normalize windows p.path) = true) ∨
   (p.recursive = false ∧
      rparent (normalize windows target) = some (normalize windows p.path))) ∧
  direction_permitted p.access write

/-! ## JSON values and tool-call types (`crates/bat-types/src/message.rs`)

`serde_json::Value` is modelled by a small inductive; numbers are `Int`
(no claim exercises float arithmetic). -/

inductive JsonVal
  | null
  | jbool (b : Bool)
  | jnum (n : Int)
  | jstr (s : String)
  | jarr (elems : List JsonVal)
  | jobj (fields : List (String × JsonVal))

/-- `Value::get(key)` on an object (`None` on other shapes). -/
def JsonVal.get (j : JsonVal) (key : String) : Option JsonVal :=
  match j with
  | .jobj fields => (fields.find? (fun f => f.1 == key)).map Prod.snd
  | _ => none

/-- `Value::as_str`. -/
def JsonVal.asStr : JsonVal → Option String
  | .jstr s => some s
  | _ => none

structure ToolCall where
  id : String
  name : String
  input : JsonVal

structure ToolResult where
  tool_call_id : String
  content : String
  is_error : Bool
deriving DecidableEq, Repr

/-! ## Tool registry (`crates/bat-agent/src/tools/mod.rs`)

A `Box<dyn ToolExecutor>` is modelled by its name together with its
`execute` function (`Result<String>` becomes `Except String String`); the
concrete per-tool implementations are out of the spec's scope, so registry
constructors take them as a parameter `impls` keyed by tool name. -/

structure Tool where
  name : String
  exec : JsonVal → Except String String

structure ToolRegistry where
  tools : List Tool

/-- `ToolRegistry::get`: first registered tool with the given name. -/
def ToolRegistry.get (reg : ToolRegistry) (name : String) : Option Tool :=
  reg.tools.find? (fun t => t.name == name)

/-- `ToolRegistry::execute`: dispatch by name, wrap `Err` into an error
result, synthesize an "Unknown tool" error for unregistered names. -/
def ToolRegistry.execute (reg : ToolRegistry) (call : ToolCall) : ToolResult :=
  match reg.get call.name with
  | some t =>
    match t.exec call.input with
    | .ok output => { tool_call_id := call.id, content := output, is_error := false }
    | .error e => { tool_call_id := call.id, content := e, is_error := true }
  | none =>
    { tool_call_id := call.id, content := "Unknown tool: " ++ call.name, is_error := true }

/-- Tool names registered by `ToolRegistry::with_default_tools` before the
bridge-gated block, in registration order. -/
def default_tool_names : List String :=
  ["fs_read", "fs_write", "fs_list", "web_fetch", "shell_run", "app_open",
   "system_info", "clipboard", "screenshot"]

/-- Tool names registered by `with_default_tools` only when a gateway
bridge is available, in registration order. -/
def bridge_tool_names : List String :=
  ["exec_run", "exec_output", "exec_write", "exec_kill", "exec_list",
   "session_spawn", "session_status", "ask_orchestrator"]

/-- `ToolRegistry::with_default_tools`: register each worker tool unless its
name is in `disabled`; the exec-family and session tools additionally
require a bridge.  `policies` configures the fs tools' executors and is
absorbed into `impls` here. -/
def with_default_tools (_policies : List PathPolicy) (disabled : List String)
    (bridge : Option Unit) (impls : String → JsonVal → Except String String) :
    ToolRegistry :=
  let base := (default_tool_names.filter (fun n => !disabled.contains n)).map
    (fun n => Tool.mk n (impls n))
  let withBridge :=
    match bridge with
    | some _ => base ++ (bridge_tool_names.filter (fun n => !disabled.contains n)).map
        (fun n => Tool.mk n (impls n))
    | none => base
  ⟨withBridge⟩

/-- `ToolRegistry::with_orchestrator_tools`: only the session-management
tools, each gated on `disabled`. -/
def with_orchestrator_tools (disabled : List String)
    (impls : String → JsonVal → Except String String) : ToolRegistry :=
  ⟨(["session_spawn", "session_status", "session_answer"].filter
      (fun n => !disabled.contains n)).map (fun n => Tool.mk n (impls n))⟩

/-! ## Agent turn loop (`crates/bat-agent/src/agent_loop.rs`) -/

def MAX_TOOL_ITERATIONS : Nat := 25

/-- `ERROR_REPEAT_THRESHOLD` from `agent_loop.rs` line 13. -/
def ERROR_REPEAT_THRESHOLD : Nat := 3

inductive ContentBlock
  | text (text : String)
  | toolUse (id name : String) (input : JsonVal)

/-- `tool_uses` from `agent_loop.rs`: the tool-use blocks in order. -/
def tool_uses (content : List ContentBlock) : List (String × String × JsonVal) :=
  content.filterMap fun b =>
    match b with
    | .toolUse id name input => some (id, name, input)
    | _ => none

/-- The `HashMap<String, usize>` of consecutive error counts, as an
association list (the map is only read through `entry`/`retain`, so the
representation order is immaterial). -/
abbrev ErrorCounts := List (String × Nat)

/-- `error_counts.entry(sig).or_insert(0); *count += 1`. -/
def countsIncr (m : ErrorCounts) (k : String) : ErrorCounts :=
  if m.any (fun p => p.1 == k) then
    m.map (fun p => if p.1 == k then (p.1, p.2 + 1) else p)
  else
    m ++ [(k, 1)]

/-- Look up a signature's count (0 when absent). -/
def countsGet (m : ErrorCounts) (k : String) : Nat :=
  ((m.find? (fun p => p.1 == k)).map Prod.snd).getD 0

/-- The synthetic stuck-agent hint appended to the error content
(`agent_loop.rs` lines 200–207). -/
def hintText (content : String) (count : Nat) : String :=
  content ++ "\n\n⚠️ [System] You have encountered this exact error " ++
    toString count ++
    " times in a row. Continuing with the same approach is unlikely to succeed. Please try a meaningfully different strategy, use a different tool, or ask the user for clarification rather than retrying the same call."

/-- The stable part of the synthetic hint, used to detect its presence in a
tool-result content. -/
def hintMarker : String := "You have encountered this exact error"

/-- `sub` occurs as a contiguous substring of `s` (Rust
`str::contains(&str)`). -/
def containsSub (s sub : String) : Bool :=
  decide (sub.data <:+: s.data)

/-- Rust `chars().take(n).collect::<String>()`: the first `n` characters. -/
def takeChars (s : String) (n : Nat) : String :=
  ⟨s.data.take n⟩

/-- Rust `str::starts_with(&str)`, character-wise. -/
def startsWithStr (s pre : String) : Bool :=
  decide (pre.data <+: s.data)

/-- Rust `str::ends_with(&str)`, character-wise. -/
def endsWithStr (s suf : String) : Bool :=
  decide (suf.data <:+ s.data)

/-- Rust `str::contains(char)`. -/
def containsChar (s : String) (c : Char) : Bool :=
  s.data.contains c

/-- One `tool_result` JSON block pushed into the message list (the constant
`"type": "tool_result"` tag is implicit). -/
structure ToolResultBlock where
  tool_use_id : String
  content : String
  is_error : Bool
deriving DecidableEq, Repr

/-- The accumulator state threaded through `execute_tools`: the turn-wide
`all_tool_calls`, `all_tool_results` and `error_counts`. -/
structure ExecState where
  all_calls : List ToolCall
  all_results : List ToolResult
  error_counts : ErrorCounts

/-- The loop body of `execute_tools` (`agent_loop.rs` lines 165–239),
iterating over the tool-use blocks: execute each call; on an error, bump
the `(tool_name, first-120-chars)` signature counter and, at or past
`ERROR_REPEAT_THRESHOLD`, replace the stored result by the hint-wrapped
one; on success, drop every counter whose signature starts with
`tool_name ++ ":"`. -/
def executeToolsGo (reg : ToolRegistry) :
    List (String × String × JsonVal) → ExecState → List ToolResultBlock × ExecState
  | [], st => ([], st)
  | (id, name, input) :: rest, st =>
    let call : ToolCall := { id := id, name := name, input := input }
    let result := reg.execute call
    if result.is_error then
      let error_prefix := takeChars result.content 120
      let sig := name ++ ":" ++ error_prefix
      let counts := countsIncr st.error_counts sig
      let count := countsGet counts sig
      if ERROR_REPEAT_THRESHOLD ≤ count then
        let hint := hintText result.content count
        let hint_result : ToolResult :=
          { tool_call_id := result.tool_call_id, content := hint, is_error := true }
        let (blocks, stF) := executeToolsGo reg rest
          { all_calls := st.all_calls ++ [call],
            all_results := st.all_results ++ [hint_result],
            error_counts := counts }
        ({ tool_use_id := id, content := hint, is_error := true } :: blocks, stF)
      else
        let (blocks, stF) := executeToolsGo reg rest
          { all_calls := st.all_calls ++ [call],
            all_results := st.all_results ++ [result],
            error_counts := counts }
        ({ tool_use_id := id, content := result.content, is_error := result.is_error }
          :: blocks, stF)
    else
      let counts := st.error_counts.filter (fun p => !startsWithStr p.1 (name ++ ":"))
      let (blocks, stF) := executeToolsGo reg rest
        { all_calls := st.all_calls ++ [call],
          all_results := st.all_results ++ [result],
          error_counts := counts }
      ({ tool_use_id := id, content := result.content, is_error := result.is_error }
        :: blocks, stF)

/-- `execute_tools` over a content-block list. -/
def execute_tools (reg : ToolRegistry) (content : List ContentBlock)
    (st : ExecState) : List ToolResultBlock × ExecState :=
  executeToolsGo reg (tool_uses content) st

/-- A registry holding one tool that always fails with the given message
(test double standing in for e.g. a failing `exec_run`). -/
def failingRegistry (toolName msg : String) : ToolRegistry :=
  ⟨[{ name := toolName, exec := fun _ => .error msg }]⟩

/-- A registry holding one tool that always succeeds with the given output. -/
def succeedingRegistry (toolName out : String) : ToolRegistry :=
  ⟨[{ name := toolName, exec := fun _ => .ok out }]⟩

/-- Claim C4's reading of a same-signature failure streak: the hint only
appears in the result content after the threshold has been crossed, so the
first `ERROR_REPEAT_THRESHOLD` results of the streak carry the raw error
content unchanged. -/
def hint_only_after_threshold (results : List ToolResult) (raw : String) : Prop :=
  ∀ i, i < ERROR_REPEAT_THRESHOLD →
    results[i]?.map ToolResult.content = some raw


/-! ## Database rows (`crates/bat-gateway/src/db.rs`)

Each SQLite table is a list of row structures; TEXT status/kind columns are
`String`s holding exactly the values the Rust code writes; `Uuid` is `Nat`;
RFC3339 timestamps are `Int` seconds (their comparisons in the code are
order-preserving on the textual form). -/

structure DbSessionRow where
  id : Nat
  key : String
  model : String
  status : String
  token_input : Int
  token_output : Int
  created_at : Int
  updated_at : Int
  kind : String
  parent_id : Option Nat
  label : Option String
  task : Option String
  subagent_status : Option String
  summary : Option String
deriving DecidableEq, Repr

/-- `bat_types::message::Message`, which is also what the `messages` table
stores (`append_message` serializes the tool call lists). -/
structure Message where
  id : Nat
  session_id : Nat
  role : String
  content : String
  tool_calls : List ToolCall
  tool_results : List ToolResult
  created_at : Int
  token_input : Option Int
  token_output : Option Int

structure DbToolCallRow where
  id : String
  message_id : Nat
  session_id : Nat
  tool_name : String
  input : JsonVal
  result_text : Option String
  is_error : Bool
  duration_ms : Option Int
  created_at : Int

structure AuditRow where
  ts : Int
  session_id : Option String
  level : String
  category : String
  event : String
  summary : String
  detail_json : Option String
deriving DecidableEq, Repr

structure ObsRow where
  ts : Int
  session_id : Option String
  kind : String
  key : String
  value : Option String
  count : Int
  created_at : Int
deriving DecidableEq, Repr

structure Db where
  sessions : List DbSessionRow
  messages : List Message
  tool_calls : List DbToolCallRow
  path_policies : List PathPolicy
  audit_log : List AuditRow
  observations : List ObsRow

/-- `ObservationKind` with its `Display` strings. -/
inductive ObservationKind
  | toolUse
  | pathAccess
  | userCorrection
  | taskPattern
  | preference
deriving DecidableEq, Repr

def obsKindStr : ObservationKind → String
  | .toolUse => "tool_use"
  | .pathAccess => "path_access"
  | .userCorrection => "user_correction"
  | .taskPattern => "task_pattern"
  | .preference => "preference"

/-- `SubagentStatus` with its `Display` strings. -/
inductive SubagentStatus
  | running
  | waitingForAnswer
  | paused
  | completed
  | failed
  | cancelled
deriving DecidableEq, Repr

def SubagentStatus.toStr : SubagentStatus → String
  | .running => "running"
  | .waitingForAnswer => "waiting_for_answer"
  | .paused => "paused"
  | .completed => "completed"
  | .failed => "failed"
  | .cancelled => "cancelled"

/-- `bat_types::session::SubagentInfo`. -/
structure SubagentInfo where
  session_id : Nat
  session_key : String
  label : String
  task : String
  status : SubagentStatus
  started_at : Int
  completed_at : Option Int
  summary : Option String
  token_input : Int
  token_output : Int
deriving DecidableEq, Repr

/-! ## Database operations (`db.rs`) -/

/-- `Database::create_session`: INSERT with status 'active', zero token
counters; the migrated `kind` column defaults to 'main'.  `id` stands for
the fresh `Uuid::new_v4()`. -/
def db_create_session (db : Db) (id : Nat) (key model : String) (now : Int) :
    Db × DbSessionRow :=
  let row : DbSessionRow :=
    { id := id, key := key, model := model, status := "active",
      token_input := 0, token_output := 0, created_at := now, updated_at := now,
      kind := "main", parent_id := none, label := none, task := none,
      subagent_status := none, summary := none }
  ({ db with sessions := db.sessions ++ [row] }, row)

/-- `Database::get_session_by_key` (`key` is UNIQUE, so first match). -/
def db_get_session_by_key (db : Db) (key : String) : Option DbSessionRow :=
  db.sessions.find? (fun r => r.key == key)

/-- `Database::delete_session`: DELETE the session's tool_calls, messages,
and the session row itself. -/
def db_delete_session (db : Db) (session_id : Nat) : Db :=
  { db with
    tool_calls := db.tool_calls.filter (fun r => r.session_id != session_id),
    messages := db.messages.filter (fun m => m.session_id != session_id),
    sessions := db.sessions.filter (fun r => r.id != session_id) }

/-- `Database::update_token_usage`: add the per-turn deltas to the
session's cumulative counters. -/
def db_update_token_usage (db : Db) (session_id : Nat) (input output : Int)
    (now : Int) : Db :=
  { db with sessions := db.sessions.map (fun r =>
      if r.id == session_id then
        { r with token_input := r.token_input + input,
                 token_output := r.token_output + output, updated_at := now }
      else r) }

/-- `Database::append_message`: INSERT. -/
def db_append_message (db : Db) (msg : Message) : Db :=
  { db with messages := db.messages ++ [msg] }

/-- `Database::create_subagent_session`: INSERT with kind 'subagent',
subagent_status 'running'; the key is derived from the fresh id. -/
def db_create_subagent_session (db : Db) (parent_id : Nat) (model label task : String)
    (newid : Nat) (now : Int) : Db × DbSessionRow :=
  let row : DbSessionRow :=
    { id := newid, key := "subagent:" ++ toString newid, model := model,
      status := "active", token_input := 0, token_output := 0,
      created_at := now, updated_at := now, kind := "subagent",
      parent_id := some parent_id, label := some label, task := some task,
      subagent_status := some "running", summary := none }
  ({ db with sessions := db.sessions ++ [row] }, row)

/-- `Database::update_subagent_status`: set subagent_status and summary
(always overwriting summary, also with NULL) on the matching row. -/
def db_update_subagent_status (db : Db) (session_id : Nat)
    (status : SubagentStatus) (summary : Option String) (now : Int) : Db :=
  { db with sessions := db.sessions.map (fun r =>
      if r.id == session_id then
        { r with subagent_status := some status.toStr, summary := summary,
                 updated_at := now }
      else r) }

/-- The status parsing in `get_subagents`: only completed/failed/cancelled
are recognized, everything else reads as Running. -/
def parse_subagent_status (s : Option String) : SubagentStatus :=
  match s with
  | some "completed" => .completed
  | some "failed" => .failed
  | some "cancelled" => .cancelled
  | _ => .running

/-- Stable insertion for ORDER BY created_at DESC (SQLite leaves ties
unspecified; a stable order is one conforming choice). -/
def insertCreatedDesc (r : DbSessionRow) : List DbSessionRow → List DbSessionRow
  | [] => [r]
  | x :: xs =>
    if r.created_at ≤ x.created_at then x :: insertCreatedDesc r xs
    else r :: x :: xs

def sortCreatedDesc : List DbSessionRow → List DbSessionRow
  | [] => []
  | x :: xs => insertCreatedDesc x (sortCreatedDesc xs)

/-- `Database::get_subagents`: rows with the given parent, newest first,
mapped into `SubagentInfo` (label/task default to empty, completed_at is
not tracked). -/
def db_get_subagents (db : Db) (parent_id : Nat) : List SubagentInfo :=
  (sortCreatedDesc (db.sessions.filter
      (fun r => r.parent_id == some parent_id))).map (fun r =>
    { session_id := r.id, session_key := r.key,
      label := r.label.getD "", task := r.task.getD "",
      status := parse_subagent_status r.subagent_status,
      started_at := r.created_at, completed_at := none,
      summary := r.summary, token_input := r.token_input,
      token_output := r.token_output })

/-- The row matcher used by `record_observation`'s UPDATE:
same kind, same key, timestamp within the last hour. -/
def obs_recent_match (kind : ObservationKind) (key : String) (one_hour_ago : Int)
    (r : ObsRow) : Bool :=
  r.kind == obsKindStr kind && r.key == key && decide (r.ts > one_hour_ago)

/-- A row for this (kind, key), regardless of recency. -/
def obs_matches (kind : ObservationKind) (key : String) (r : ObsRow) : Bool :=
  r.kind == obsKindStr kind && r.key == key

/-- `Database::record_observation`: UPDATE count+1 and bump ts on every
(kind, key) row of the last hour; when none was updated, INSERT a fresh
row with count 1.  The two `Utc::now()` calls are modelled by the single
`now` (spec §9 explicitly allows one "now" per call). -/
def db_record_observation (db : Db) (kind : ObservationKind) (key : String)
    (value : Option String) (session_id : Option String) (now : Int) : Db :=
  let one_hour_ago := now - 3600
  let updated := (db.observations.filter (obs_recent_match kind key one_hour_ago)).length
  if updated == 0 then
    { db with observations := db.observations ++
        [{ ts := now, session_id := session_id, kind := obsKindStr kind,
           key := key, value := value, count := 1, created_at := now }] }
  else
    { db with observations := db.observations.map (fun r =>
        if obs_recent_match kind key one_hour_ago r then
          { r with count := r.count + 1, ts := now }
        else r) }

/-- N successive `record_observation` calls at the given times. -/
def record_calls (db : Db) (kind : ObservationKind) (key : String)
    (value : Option String) (session_id : Option String) : List Int → Db
  | [] => db
  | t :: ts =>
    record_calls (db_record_observation db kind key value session_id t)
      kind key value session_id ts

/-! ## Gateway session management (`crates/bat-gateway/src/lib.rs`) -/

/-- The parts of `Gateway` state the session operations touch. -/
structure GatewayState where
  db : Db
  active_session_key : String

/-- `Gateway::delete_session` (lib.rs lines 517–529): refuse the literal
key "main"; otherwise look the session up by key, delete it with its
messages, and fall back to "main" when the active session was deleted. -/
def gateway_delete_session (gw : GatewayState) (key : String) :
    Except String GatewayState :=
  if key == "main" then
    .error "Cannot delete the main session"
  else
    match db_get_session_by_key gw.db key with
    | none => .error ("Session not found: " ++ key)
    | some session =>
      let db := db_delete_session gw.db session.id
      let active := if gw.active_session_key == key then "main"
                    else gw.active_session_key
      .ok { db := db, active_session_key := active }

/-! ## IPC message types (`crates/bat-types/src/ipc.rs`) -/

inductive ProcessAction
  | start (command : String) (workdir : Option String) (background : Bool)
  | getOutput (session_id : String)
  | writeStdin (session_id data : String)
  | kill (session_id : String)
  | list
  | spawnSubagent (task : String) (label : Option String)
  | listSubagents
  | cancelSubagent (session_key : String)
  | pauseSubagent (session_key : String)
  | resumeSubagent (session_key : String) (instructions : Option String)
  | instructSubagent (session_key instruction : String)
  | askOrchestrator (question context : String) (blocking : Bool)

inductive ProcessResult
  | started (session_id : String)
  | output (session_id stdout stderr : String) (is_running : Bool) (exit_code : Option Int)
  | written
  | killed
  | processList (processes : List String)
  | errorResult (message : String)
  | subagentSpawned (session_key session_id : String)
  | subagentList (subagents : List SubagentInfo)
  | subagentCancelled
  | subagentPaused
  | subagentResumed
  | subagentInstructed
  | orchestratorAnswer (answer : String)

/-- `AgentToGateway` (the `Progress` percent payload, an `f32`, is not
modelled — no claim touches it). -/
inductive AgentToGateway
  | textDelta (content : String)
  | toolCallStart (tool_call : ToolCall)
  | toolCallResult (result : ToolResult)
  | turnComplete (message : Message)
  | errorEvent (message : String)
  | auditLog (level category event summary : String) (detail_json : Option String)
  | processRequest (request_id : String) (action : ProcessAction)
  | question (question_id question context : String) (blocking : Bool)
  | progress (summary : String)

inductive GatewayToAgent
  | init (session_id model system_prompt : String) (history : List Message)
      (path_policies : List PathPolicy) (disabled_tools : List String)
      (session_kind : String)
  | userMessage (content : String)
  | cancel
  | processResponse (request_id : String) (result : ProcessResult)
  | answer (question_id answer : String)
  | instruction (instruction_id content : String)

/-- `is_terminal` from the turn-runner loop (lib.rs lines 1314–1317). -/
def isTerminalEvent : AgentToGateway → Bool
  | .turnComplete _ => true
  | .errorEvent _ => true
  | _ => false

mutual

/-- `serde_json::to_string` for the audit detail of a tool call (string
escaping is not modelled; no claim inspects the rendered text). -/
def renderJson : JsonVal → String
  | .null => "null"
  | .jbool true => "true"
  | .jbool false => "false"
  | .jnum n => toString n
  | .jstr s => "\"" ++ s ++ "\""
  | .jarr xs => "[" ++ renderJsonArr xs ++ "]"
  | .jobj fs => "\x7b" ++ renderJsonObj fs ++ "\x7d"

def renderJsonArr : List JsonVal → String
  | [] => ""
  | [x] => renderJson x
  | x :: xs => renderJson x ++ "," ++ renderJsonArr xs

def renderJsonObj : List (String × JsonVal) → String
  | [] => ""
  | [(k, v)] => "\"" ++ k ++ "\":" ++ renderJson v
  | (k, v) :: fs => "\"" ++ k ++ "\":" ++ renderJson v ++ "," ++ renderJsonObj fs

end

/-- `audit` (lib.rs lines 968–987): insert an audit row and fan the entry
out on the event bus.  Level/category enums appear as their `Display`
strings. -/
def audit (db : Db) (bus : List AgentToGateway)
    (level category event summary : String) (session_id : Option String)
    (detail_json : Option String) (now : Int) : Db × List AgentToGateway :=
  ({ db with audit_log := db.audit_log ++
      [{ ts := now, session_id := session_id, level := level, category := category,
         event := event, summary := summary, detail_json := detail_json }] },
   bus ++ [.auditLog level category event summary detail_json])

/-- State threaded through the turn-runner event loop: the store, the
events published on the bus, and the replies written back to the pipe. -/
structure TurnLoopState where
  db : Db
  bus : List AgentToGateway
  pipe_out : List GatewayToAgent

/-- The turn-runner event loop, step 6 of `run_agent_turn` (lib.rs lines
1311–1402).  The incoming pipe is the event list; list exhaustion is the
pipe closing without a terminal event.  `handler` stands for
`handle_subagent_action` / `handle_process_request`; its detached child
turns are modelled separately (`on_subagent_turn_ok`), and the replies it
produces are written to `pipe_out`.  A single `now` stands for the per-event
`Utc::now()` audit timestamps. -/
def run_turn_loop (handler : Db → ProcessAction → Db × ProcessResult)
    (session_id : Nat) (sid : String) (now : Int) :
    List AgentToGateway → TurnLoopState → TurnLoopState
  | [], st =>
    let (db1, bus1) := audit st.db st.bus "error" "ipc" "pipe_disconnected"
        "Agent disconnected unexpectedly" (some sid) none now
    { db := db1,
      bus := bus1 ++ [.errorEvent "Agent disconnected unexpectedly"],
      pipe_out := st.pipe_out }
  | ev :: rest, st =>
    match ev with
    | .toolCallStart tc =>
      let (db1, bus1) := audit st.db st.bus "info" "tool" "tool_call_start"
          ("Tool call: " ++ tc.name) (some sid) (some (renderJson tc.input)) now
      let db2 := db_record_observation db1 .toolUse tc.name none (some sid) now
      let db3 :=
        match (tc.input.get "path").bind JsonVal.asStr with
        | some path => db_record_observation db2 .pathAccess path (some tc.name) (some sid) now
        | none => db2
      run_turn_loop handler session_id sid now rest
        { db := db3, bus := bus1 ++ [ev], pipe_out := st.pipe_out }
    | .toolCallResult r =>
      let status := if r.is_error then "error" else "success"
      let (db1, bus1) := audit st.db st.bus "info" "tool" "tool_call_result"
          ("Tool result (" ++ status ++ "): " ++ toString r.content.length ++ " chars")
          (some sid) none now
      run_turn_loop handler session_id sid now rest
        { db := db1, bus := bus1 ++ [ev], pipe_out := st.pipe_out }
    | .turnComplete message =>
      let (db1, bus1) := audit st.db st.bus "info" "agent" "turn_complete"
          ("Turn complete (in: " ++ toString (message.token_input.getD 0) ++
            ", out: " ++ toString (message.token_output.getD 0) ++ ")")
          (some sid) none now
      let db2 := db_append_message db1 message
      let db3 :=
        match message.token_input, message.token_output with
        | some inp, some out => db_update_token_usage db2 session_id inp out now
        | _, _ => db2
      { db := db3, bus := bus1 ++ [ev], pipe_out := st.pipe_out }
    | .errorEvent m =>
      let (db1, bus1) := audit st.db st.bus "error" "agent" "agent_error" m
          (some sid) none now
      { db := db1, bus := bus1 ++ [ev], pipe_out := st.pipe_out }
    | .processRequest request_id action =>
      let (db1, result) := handler st.db action
      run_turn_loop handler session_id sid now rest
        { db := db1, bus := st.bus,
          pipe_out := st.pipe_out ++ [.processResponse request_id result] }
    | _ =>
      run_turn_loop handler session_id sid now rest
        { db := st.db, bus := st.bus ++ [ev], pipe_out := st.pipe_out }

/-- A session's cumulative token counters, when the session exists. -/
def sessionTokens (db : Db) (session_id : Nat) : Option (Int × Int) :=
  (db.sessions.find? (fun r => r.id == session_id)).map
    (fun r => (r.token_input, r.token_output))

/-! ## Sub-agent scheduler completion (`lib.rs` lines 1038–1069) -/

/-- The summary stored on successful completion of a subagent turn. -/
def subagent_success_summary : String := "Task completed successfully."

/-- The `Ok(())` arm of the detached subagent task: mark completed with the
fixed success summary (the audit event goes to the bus, not the store state
modelled here). -/
def on_subagent_turn_ok (db : Db) (sub_id : Nat) (now : Int) : Db :=
  db_update_subagent_status db sub_id .completed (some subagent_success_summary) now

/-- The `Err(e)` arm: mark failed with the error text as summary. -/
def on_subagent_turn_err (db : Db) (sub_id : Nat) (err : String) (now : Int) : Db :=
  db_update_subagent_status db sub_id .failed (some err) now

/-- Claim C3's account of a successful completion: `ListSubagents` shows the
child completed with the child's final assistant text as the summary. -/
def subagent_summary_is_child_text (db : Db) (parent sub_id : Nat)
    (childText : String) : Prop :=
  ∃ info ∈ db_get_subagents db parent,
    info.session_id = sub_id ∧ info.status = .completed ∧
    info.summary = some childText

/-- Claim C2's account of deletion: every session whose kind is Main is
protected from deletion. -/
def main_sessions_undeletable (gw : GatewayState) : Prop :=
  ∀ (key : String) (s : DbSessionRow),
    db_get_session_by_key gw.db key = some s → s.kind = "main" →
    ∃ e, gateway_delete_session gw key = Except.error e

/-! ## Agent-side event emission (`crates/bat-agent/src/main.rs`) -/

/-- `TurnResult` from `agent_loop.rs`. -/
structure TurnResult where
  response_text : String
  tool_calls : List ToolCall
  tool_results : List ToolResult
  total_input_tokens : Int
  total_output_tokens : Int

/-- The `TurnComplete` assistant message built in `run_agent` (main.rs lines
301–305).  `mid`/`now` stand for the fresh uuid and `Utc::now()` of
`Message::assistant`. -/
def turn_complete_message (session_id mid : Nat) (now : Int) (tr : TurnResult) :
    Message :=
  { id := mid, session_id := session_id, role := "assistant",
    content := tr.response_text, tool_calls := tr.tool_calls,
    tool_results := tr.tool_results, created_at := now,
    token_input := some tr.total_input_tokens,
    token_output := some tr.total_output_tokens }

/-- The messages `run_agent` sends on the pipe for a turn with no bridge
requests (main.rs steps 5–6): the streamed text deltas, then — after the
turn future finishes — ToolCallStart for every call, then ToolCallResult
for every result, then TurnComplete. -/
def agent_emitted_events (deltas : List String) (tr : TurnResult) (msg : Message) :
    List AgentToGateway :=
  deltas.map AgentToGateway.textDelta ++
    tr.tool_calls.map AgentToGateway.toolCallStart ++
    tr.tool_results.map AgentToGateway.toolCallResult ++
    [AgentToGateway.turnComplete msg]

/-- The event-order pattern claimed by C5:
`TextDelta* (ToolCallStart ToolCallResult)* TurnComplete`, each start
immediately followed by its matching result. -/
def pairedTail : List AgentToGateway → Bool
  | [.turnComplete _] => true
  | .toolCallStart tc :: .toolCallResult r :: rest =>
    tc.id == r.tool_call_id && pairedTail rest
  | _ => false

def pairedProtocol : List AgentToGateway → Bool
  | .textDelta _ :: rest => pairedProtocol rest
  | l => pairedTail l

/-- The grouped pattern the code actually emits:
`TextDelta* ToolCallStart* ToolCallResult* TurnComplete`. -/
def groupedResults : List AgentToGateway → Bool
  | [.turnComplete _] => true
  | .toolCallResult _ :: rest => groupedResults rest
  | _ => false

def groupedStarts : List AgentToGateway → Bool
  | .toolCallStart _ :: rest => groupedStarts rest
  | l => groupedResults l

def groupedProtocol : List AgentToGateway → Bool
  | .textDelta _ :: rest => groupedProtocol rest
  | l => groupedStarts l

/-! ## Sub-agent spawning and the session forest (`lib.rs`, `tools/mod.rs`) -/

/-- The child's disabled-tool list built by the scheduler (lib.rs lines
1028–1029): the configured base plus "session_spawn". -/
def subagent_disabled_tools (base : List String) : List String :=
  base ++ ["session_spawn"]

/-- The registry the agent builds for a turn (main.rs lines 202–208):
orchestrator tools for session_kind "main", worker tools with a bridge
otherwise. -/
def registry_for_turn (session_kind : String) (policies : List PathPolicy)
    (disabled : List String) (impls : String → JsonVal → Except String String) :
    ToolRegistry :=
  if session_kind == "main" then with_orchestrator_tools disabled impls
  else with_default_tools policies disabled (some ()) impls

/-- The in-memory `SessionKind` of `bat_types::session`. -/
inductive SessionKindMeta
  | main
  | subagent (parent_id : Nat) (label task : String)

/-- The `kind` field of the `SessionMeta` built by `row_to_session`
(db.rs line 779): hard-coded `SessionKind::Main` — the DB `kind` column is
never read back on this path, despite the comment deferring to
"DB columns". -/
def row_to_session_kind (_row : DbSessionRow) : SessionKindMeta := .main

/-- The session_kind string computed by `send_user_message` (lib.rs lines
413–421): "main" for the active key "main", otherwise matched from the
in-memory session kind.  Because `row_to_session_kind` is constant Main,
the Subagent arm is dead and every user-addressed turn runs as "main". -/
def send_turn_session_kind (active_key : String) (row : DbSessionRow) : String :=
  if active_key == "main" then "main"
  else
    match row_to_session_kind row with
    | .main => "main"
    | .subagent _ _ _ => "subagent"

/-- Transitions of the sessions table, one per way a session comes into
being.  `createMain` is `create_session`.  `schedulerSpawn` is a
`SpawnSubagent` issued from a turn the scheduler started
(lib.rs 1038–1046): such turns run only on the subagent rows the scheduler
just created, with session_kind "subagent" and the pushed disabled list
`subagent_disabled_tools base`.  `userTurnSpawn` is a `SpawnSubagent`
issued from a turn started by `send_user_message` on the active session:
`switch_session` (lib.rs 500–509) accepts any existing key with no kind
check, the session row is loaded through `row_to_session`, the turn's
session_kind is `send_turn_session_kind` and its disabled list is the
configured base.  In both cases the `session_spawn` tool is the only code
that sends the `SpawnSubagent` bridge action, so a spawn step carries the
premise that the spawning turn's registry resolves that tool; `hfresh`
models `Uuid::new_v4` freshness. -/
inductive SchedStep (base : List String) (policies : List PathPolicy)
    (impls : String → JsonVal → Except String String) : Db → Db → Prop
  | createMain (db : Db) (id : Nat) (key model : String) (now : Int)
      (hfresh : ∀ r ∈ db.sessions, r.id ≠ id) :
      SchedStep base policies impls db (db_create_session db id key model now).1
  | schedulerSpawn (db : Db) (s : DbSessionRow) (hs : s ∈ db.sessions)
      (hkind : s.kind = "subagent")
      (model label task : String) (newid : Nat) (now : Int)
      (hfresh : ∀ r ∈ db.sessions, r.id ≠ newid)
      (htool : ((registry_for_turn "subagent" policies
          (subagent_disabled_tools base) impls).get "session_spawn").isSome = true) :
      SchedStep base policies impls db
        (db_create_subagent_session db s.id model label task newid now).1
  | userTurnSpawn (db : Db) (s : DbSessionRow) (hs : s ∈ db.sessions)
      (model label task : String) (newid : Nat) (now : Int)
      (hfresh : ∀ r ∈ db.sessions, r.id ≠ newid)
      (htool : ((registry_for_turn (send_turn_session_kind s.key s) policies
          base impls).get "session_spawn").isSome = true) :
      SchedStep base policies impls db
        (db_create_subagent_session db s.id model label task newid now).1

/-- The depth bound as C9 states it: no subagent has a subagent parent. -/
def sessions_depth_le_one (db : Db) : Prop :=
  ∀ r ∈ db.sessions, r.kind = "subagent" →
    ∀ p ∈ db.sessions, r.parent_id = some p.id → p.kind = "main"

/-! ## Memory files (`crates/bat-gateway/src/memory.rs`)

The filesystem is a list of (component path, contents); the workspace
directory is a component prefix. -/

abbrev FsPath := List String

structure FileSys where
  files : List (FsPath × String)

def fs_read_file (fs : FileSys) (p : FsPath) : Option String :=
  (fs.files.find? (fun f => f.1 == p)).map Prod.snd

/-- `std::fs::write` / the write half of `std::fs::copy`: create or
overwrite. -/
def fs_write_file (fs : FileSys) (p : FsPath) (content : String) : FileSys :=
  if fs.files.any (fun f => f.1 == p) then
    ⟨fs.files.map (fun f => if f.1 == p then (f.1, content) else f)⟩
  else
    ⟨fs.files ++ [(p, content)]⟩

/-- `validate_filename` (memory.rs lines 70–78). -/
def validate_filename (name : String) : Except String Unit :=
  if containsChar name '/' || containsChar name '\\' ||
      containsSub name ".." || name == "" then
    .error ("Invalid memory file name: " ++ name)
  else if !endsWithStr name ".md" then
    .error "Memory files must end with .md"
  else
    .ok ()

/-- Outcome of a memory-file operation, with the files it read and the
files it created or overwrote. -/
structure MemOpOutcome (α : Type) where
  result : Except String α
  fs : FileSys
  reads : List FsPath
  writes : List FsPath

/-- `read_memory_file`: validate, then read `workspace/name`. -/
def read_memory_file (workspace : FsPath) (fs : FileSys) (name : String) :
    MemOpOutcome String :=
  match validate_filename name with
  | .error e => ⟨.error e, fs, [], []⟩
  | .ok _ =>
    let path := workspace ++ [name]
    match fs_read_file fs path with
    | some content => ⟨.ok content, fs, [path], []⟩
    | none =>
      ⟨.error ("Failed to read " ++ String.intercalate "/" path), fs, [path], []⟩

/-- `write_memory_file`: validate; when `workspace/name` exists, first copy
it to `workspace/name.bak`; then write the new content. -/
def write_memory_file (workspace : FsPath) (fs : FileSys) (name content : String) :
    MemOpOutcome Unit :=
  match validate_filename name with
  | .error e => ⟨.error e, fs, [], []⟩
  | .ok _ =>
    let path := workspace ++ [name]
    match fs_read_file fs path with
    | some existing =>
      let backup := workspace ++ [name ++ ".bak"]
      let fs1 := fs_write_file fs backup existing
      let fs2 := fs_write_file fs1 path content
      ⟨.ok (), fs2, [path], [backup, path]⟩
    | none =>
      ⟨.ok (), fs_write_file fs path content, [], [path]⟩

/-- Claim C10's conclusion as stated: the public memory-file operations
only ever touch `.md` files directly inside the workspace directory. -/
def memory_ops_touch_only_md (workspace : FsPath) : Prop :=
  ∀ (fs : FileSys) (name content : String),
    (∀ q ∈ (write_memory_file workspace fs name content).reads ++
        (write_memory_file workspace fs name content).writes,
      ∃ n, q = workspace ++ [n] ∧ endsWithStr n ".md" = true) ∧
    (∀ q ∈ (read_memory_file workspace fs name).reads ++
        (read_memory_file workspace fs name).writes,
      ∃ n, q = workspace ++ [n] ∧ endsWithStr n ".md" = true)


/-! ## Concrete example states used by witnesses and counterexamples -/

def emptyDb : Db := ⟨[], [], [], [], [], []⟩

/-- The default "main" session row. -/
def mainRowEx : DbSessionRow :=
  { id := 0, key := "main", model := "m", status := "active", token_input := 0,
    token_output := 0, created_at := 0, updated_at := 0, kind := "main",
    parent_id := none, label := none, task := none, subagent_status := none,
    summary := none }

/-- A second user-created session: kind Main, key "work". -/
def workRowEx : DbSessionRow := { mainRowEx with id := 1, key := "work" }

def workMsgEx : Message :=
  { id := 10, session_id := 1, role := "user", content := "hello",
    tool_calls := [], tool_results := [], created_at := 1,
    token_input := none, token_output := none }

def workDbEx : Db :=
  { emptyDb with sessions := [mainRowEx, workRowEx], messages := [workMsgEx] }

def workGwEx : GatewayState := { db := workDbEx, active_session_key := "main" }

/-- Store right after `create_subagent_session(parent = 0)` with fresh id 1. -/
def subSpawnDbEx : Db :=
  (db_create_subagent_session { emptyDb with sessions := [mainRowEx] }
    0 "m" "L" "T" 1 5).1

/-- The child turn's final assistant message, persisted by its own
`run_agent_turn` on `TurnComplete`. -/
def childMsgEx : Message :=
  { id := 11, session_id := 1, role := "assistant",
    content := "The answer is 42.", tool_calls := [], tool_results := [],
    created_at := 6, token_input := some 1, token_output := some 2 }

/-- Store after the child turn completed and the scheduler's `Ok(())` arm
ran. -/
def subCompletedDbEx : Db :=
  on_subagent_turn_ok (db_append_message subSpawnDbEx childMsgEx) 1 7

/-- The listing entry expected for the completed subagent. -/
def subInfoEx : SubagentInfo :=
  { session_id := 1, session_key := "subagent:1", label := "L", task := "T",
    status := .completed, started_at := 5, completed_at := none,
    summary := some subagent_success_summary, token_input := 0,
    token_output := 0 }

/-- Two tool calls with matching results, for the event-order claims. -/
def tcAEx : ToolCall := { id := "T1", name := "fs_read", input := JsonVal.null }
def tcBEx : ToolCall := { id := "T2", name := "fs_read", input := JsonVal.null }
def trAEx : ToolResult := { tool_call_id := "T1", content := "ok", is_error := false }
def trBEx : ToolResult := { tool_call_id := "T2", content := "ok", is_error := false }

def turnResEx : TurnResult :=
  { response_text := "done", tool_calls := [tcAEx, tcBEx],
    tool_results := [trAEx, trBEx], total_input_tokens := 1,
    total_output_tokens := 2 }

def turnMsgEx : Message := turn_complete_message 1 20 9 turnResEx

def turnResOneEx : TurnResult :=
  { response_text := "done", tool_calls := [tcAEx], tool_results := [trAEx],
    total_input_tokens := 1, total_output_tokens := 2 }

def turnMsgOneEx : Message := turn_complete_message 1 21 9 turnResOneEx

/-- A process-request handler that leaves the store untouched, standing in
for `handle_process_request` in witnesses. -/
def trivialHandler : Db → ProcessAction → Db × ProcessResult :=
  fun db _ => (db, .written)

/-- Trivial per-tool implementations for registry witnesses. -/
def okImpls : String → JsonVal → Except String String := fun _ _ => .ok "ok"

/-- One `create_session` step from the empty store. -/
def sched1DbEx : Db := (db_create_session emptyDb 0 "main" "m" 0).1

/-- The store after a spawn from the main session's turn: sessions
"main" (id 0) and subagent id 1 with parent 0. -/
def sched2DbEx : Db :=
  (db_create_subagent_session sched1DbEx
    (db_create_session emptyDb 0 "main" "m" 0).2.id "m" "L" "T" 1 1).1

/-- The subagent row created by that spawn (key "subagent:1"). -/
def subRowEx : DbSessionRow :=
  (db_create_subagent_session sched1DbEx
    (db_create_session emptyDb 0 "main" "m" 0).2.id "m" "L" "T" 1 1).2

/-- The store after a further spawn issued from a user-addressed turn
running on the subagent session itself: subagent id 2 with parent 1. -/
def sched3DbEx : Db :=
  (db_create_subagent_session sched2DbEx subRowEx.id "m" "L2" "T2" 2 2).1

/-- The depth-2 row: subagent id 2 whose parent is subagent id 1. -/
def subRow2Ex : DbSessionRow :=
  (db_create_subagent_session sched2DbEx subRowEx.id "m" "L2" "T2" 2 2).2

/-- Workspace with an existing MEMORY.md, for the memory-file claims. -/
def wsEx : FsPath := ["ws"]

def memFsEx : FileSys := ⟨[(["ws", "MEMORY.md"], "old")]⟩

/-! ## Theorems -/

/-- C1: `PathPolicy::allows(p, t, write)` holds iff, after normalization,
either `p.recursive` holds and normalized `t` starts_with normalized
`p.path`, or `p.recursive` fails and normalized `t`'s parent equals
normalized `p.path`, and the direction is permitted by `p.access`
(ReadWrite both, ReadOnly read only, WriteOnly write only); and
`check_access(policies, t, write)` holds iff some policy in the list allows
`(t, write)`. -/
theorem allows_iff_spec_and_check_access_iff_exists :
    ∀ (windows : Bool) (p : PathPolicy) (target : RPath) (write : Bool)
      (policies : List PathPolicy),
      (p.allows windows target write = true ↔ allows_spec windows p target write) ∧
      (check_access windows policies target write = true ↔
        ∃ q ∈ policies, q.allows windows target write = true) := by
  intro windows p target write policies
  constructor
  · unfold PathPolicy.allows allows_spec direction_permitted
    cases hrec : p.recursive <;>
      cases haccess : p.access <;>
        cases write <;>
          simp [hrec, haccess, beq_iff_eq]
  · unfold check_access
    simp [List.any_eq_true]

/-- C8: upgrading a policy's access level to ReadWrite only widens what it
allows — a ReadOnly policy's reads and a WriteOnly policy's writes are both
allowed under ReadWrite — and consequently `check_access` over a list with
every access level raised to ReadWrite accepts everything the original list
accepted. -/
theorem check_access_monotone_in_access :
    ∀ (windows : Bool) (q : PathPolicy) (target : RPath),
      (({ q with access := .readOnly } : PathPolicy).allows windows target false = true →
        ({ q with access := .readWrite } : PathPolicy).allows windows target false = true) ∧
      (({ q with access := .writeOnly } : PathPolicy).allows windows target true = true →
        ({ q with access := .readWrite } : PathPolicy).allows windows target true = true) ∧
      ∀ (policies : List PathPolicy) (write : Bool),
        check_access windows policies target write = true →
        check_access windows
          (policies.map (fun p => { p with access := .readWrite })) target write = true := by
  intro windows q target
  refine ⟨?_, ?_, ?_⟩
  · unfold PathPolicy.allows
    cases hrec : q.recursive <;> simp [hrec]
  · unfold PathPolicy.allows
    cases hrec : q.recursive <;> simp [hrec]
  · intro policies write h
    unfold check_access at h ⊢
    rcases List.any_eq_true.mp h with ⟨p, hp, hallow⟩
    refine List.any_eq_true.mpr ⟨{ p with access := .readWrite }, List.mem_map_of_mem _ hp, ?_⟩
    revert hallow
    unfold PathPolicy.allows
    cases hrec : p.recursive <;> cases haccess : p.access <;> cases write <;>
      simp [hrec, haccess]

/-- Witness for C8 at a concrete policy and path: `/tmp` recursive ReadOnly
allows reading `/tmp/x`, hence so does ReadWrite, and similarly for writes;
the aggregated form holds for a singleton policy list. -/
theorem check_access_monotone_in_access_witness :
    (({ path := ⟨false, [.root, .name "tmp"]⟩, access := .readOnly,
        recursive := true, description := none } : PathPolicy).allows
        false ⟨false, [.root, .name "tmp", .name "x"]⟩ false = true) ∧
    (({ path := ⟨false, [.root, .name "tmp"]⟩, access := .readWrite,
        recursive := true, description := none } : PathPolicy).allows
        false ⟨false, [.root, .name "tmp", .name "x"]⟩ false = true) := by
  have h := check_access_monotone_in_access false
    { path := ⟨false, [.root, .name "tmp"]⟩, access := .readOnly,
      recursive := true, description := none }
    ⟨false, [.root, .name "tmp", .name "x"]⟩
  exact ⟨by decide, h.1 (by decide)⟩


/-! ### C4 — the stuck-agent circuit breaker -/

theorem rangeMapShift {α : Type} (g : Nat → α) (m j : Nat) :
    (List.range (m + 1)).map (fun t => g (j + t + 1)) =
      g (j + 1) :: (List.range m).map (fun t => g (j + 1 + t + 1)) := by
  rw [List.range_succ_eq_map]
  simp only [List.map_cons, List.map_map, Function.comp]
  refine List.cons_eq_cons.mpr ⟨by simp, ?_⟩
  apply List.map_congr_left
  intro a _
  show g (j + (a + 1) + 1) = g (j + 1 + a + 1)
  have harg : j + (a + 1) + 1 = j + 1 + a + 1 := by omega
  rw [harg]

theorem rangeMapSucc {α : Type} (g : Nat → α) (m : Nat) :
    (List.range (m + 1)).map (fun t => g (t + 1)) =
      g 1 :: (List.range m).map (fun t => g (t + 1 + 1)) := by
  rw [List.range_succ_eq_map]
  simp only [List.map_cons, List.map_map, Function.comp]
  refine List.cons_eq_cons.mpr ⟨by simp, ?_⟩
  apply List.map_congr_left
  intro a _
  rfl

theorem execStateMkCongr {a a' : List ToolCall} {b b' : List ToolResult}
    {c c' : ErrorCounts} (h1 : a = a') (h2 : b = b') (h3 : c = c') :
    ExecState.mk a b c = ExecState.mk a' b' c' := by
  rw [h1, h2, h3]

/-- In a streak of identical failing calls, each step bumps the single
signature counter and stores either the raw or the hint-wrapped result
according to whether the counter has reached the threshold. -/
theorem failRunGo (reg : ToolRegistry) (id name : String) (input : JsonVal)
    (raw : String)
    (hexec : reg.execute { id := id, name := name, input := input } =
      { tool_call_id := id, content := raw, is_error := true }) :
    ∀ (m j : Nat) (cs : List ToolCall) (rs : List ToolResult),
      (executeToolsGo reg (List.replicate m (id, name, input))
        { all_calls := cs, all_results := rs,
          error_counts := [(name ++ ":" ++ takeChars raw 120, j)] }).2 =
      { all_calls := cs ++ List.replicate m { id := id, name := name, input := input },
        all_results := rs ++ (List.range m).map (fun t =>
          if ERROR_REPEAT_THRESHOLD ≤ j + t + 1
          then { tool_call_id := id, content := hintText raw (j + t + 1), is_error := true }
          else { tool_call_id := id, content := raw, is_error := true }),
        error_counts := [(name ++ ":" ++ takeChars raw 120, j + m)] } := by
  intro m
  induction m with
  | zero => intro j cs rs; simp [executeToolsGo]
  | succ m ih =>
    intro j cs rs
    rw [List.replicate_succ]
    simp only [executeToolsGo, hexec]
    have hcounts : countsIncr [(name ++ ":" ++ takeChars raw 120, j)]
        (name ++ ":" ++ takeChars raw 120) = [(name ++ ":" ++ takeChars raw 120, j + 1)] := by
      simp [countsIncr]
    have hget : countsGet [(name ++ ":" ++ takeChars raw 120, j + 1)]
        (name ++ ":" ++ takeChars raw 120) = j + 1 := by
      simp [countsGet, List.find?]
    rw [hcounts, hget]
    by_cases hth : ERROR_REPEAT_THRESHOLD ≤ j + 1
    · simp only [if_pos hth]
      have := ih (j + 1) (cs ++ [{ id := id, name := name, input := input }])
        (rs ++ [{ tool_call_id := id, content := hintText raw (j + 1), is_error := true }])
      cases hpair : executeToolsGo reg (List.replicate m (id, name, input))
        { all_calls := cs ++ [{ id := id, name := name, input := input }],
          all_results := rs ++ [{ tool_call_id := id, content := hintText raw (j + 1), is_error := true }],
          error_counts := [(name ++ ":" ++ takeChars raw 120, j + 1)] } with
      | mk blocks stF =>
        rw [hpair] at this
        rw [this]
        refine execStateMkCongr ?_ ?_ ?_
        · simp [List.replicate_succ]
        · rw [rangeMapShift (fun c =>
            if ERROR_REPEAT_THRESHOLD ≤ c
            then ({ tool_call_id := id, content := hintText raw c, is_error := true } : ToolResult)
            else { tool_call_id := id, content := raw, is_error := true }) m j]
          simp [if_pos hth]
        · have h3 : j + 1 + m = j + (m + 1) := by omega
          rw [h3]
    · simp only [if_neg hth]
      have := ih (j + 1) (cs ++ [{ id := id, name := name, input := input }])
        (rs ++ [{ tool_call_id := id, content := raw, is_error := true }])
      cases hpair : executeToolsGo reg (List.replicate m (id, name, input))
        { all_calls := cs ++ [{ id := id, name := name, input := input }],
          all_results := rs ++ [{ tool_call_id := id, content := raw, is_error := true }],
          error_counts := [(name ++ ":" ++ takeChars raw 120, j + 1)] } with
      | mk blocks stF =>
        rw [hpair] at this
        rw [this]
        refine execStateMkCongr ?_ ?_ ?_
        · simp [List.replicate_succ]
        · rw [rangeMapShift (fun c =>
            if ERROR_REPEAT_THRESHOLD ≤ c
            then ({ tool_call_id := id, content := hintText raw c, is_error := true } : ToolResult)
            else { tool_call_id := id, content := raw, is_error := true }) m j]
          simp [if_neg hth]
        · have h3 : j + 1 + m = j + (m + 1) := by omega
          rw [h3]

theorem hint_contains_marker (raw : String) (c : Nat) :
    containsSub (hintText raw c) hintMarker = true := by
  unfold containsSub hintText
  refine decide_eq_true ?_
  have hfix : hintMarker.data <:+:
      ("\n\n⚠️ [System] You have encountered this exact error " : String).data := by
    decide
  have hdata : (raw ++ "\n\n⚠️ [System] You have encountered this exact error " ++
      toString c ++ " times in a row. Continuing with the same approach is unlikely to succeed. Please try a meaningfully different strategy, use a different tool, or ask the user for clarification rather than retrying the same call.").data =
      raw.data ++ (("\n\n⚠️ [System] You have encountered this exact error " : String).data ++
        ((toString c : String).data ++ (" times in a row. Continuing with the same approach is unlikely to succeed. Please try a meaningfully different strategy, use a different tool, or ask the user for clarification rather than retrying the same call." : String).data)) := by
    simp [List.append_assoc]
  rw [hdata]
  refine hfix.trans ?_
  exact ⟨raw.data,
    (toString c : String).data ++ (" times in a row. Continuing with the same approach is unlikely to succeed. Please try a meaningfully different strategy, use a different tool, or ask the user for clarification rather than retrying the same call." : String).data,
    by simp⟩

theorem tool_uses_replicate (k : Nat) (id name : String) (input : JsonVal) :
    tool_uses (List.replicate k (ContentBlock.toolUse id name input)) =
      List.replicate k (id, name, input) := by
  induction k with
  | zero => rfl
  | succ k ih =>
    rw [List.replicate_succ, List.replicate_succ]
    simp only [tool_uses, List.filterMap_cons] at ih ⊢
    rw [ih]

/-- Full characterization of the stored results in a run of `k` identical
failing calls starting from a fresh turn state. -/
theorem failRun_results (reg : ToolRegistry) (id name : String) (input : JsonVal)
    (raw : String)
    (hexec : reg.execute { id := id, name := name, input := input } =
      { tool_call_id := id, content := raw, is_error := true }) (k : Nat) :
    (execute_tools reg (List.replicate k (ContentBlock.toolUse id name input))
      { all_calls := [], all_results := [], error_counts := [] }).2.all_results =
    (List.range k).map (fun t =>
      if ERROR_REPEAT_THRESHOLD ≤ t + 1
      then { tool_call_id := id, content := hintText raw (t + 1), is_error := true }
      else ({ tool_call_id := id, content := raw, is_error := true } : ToolResult)) := by
  unfold execute_tools
  rw [tool_uses_replicate]
  cases k with
  | zero => simp [executeToolsGo]
  | succ m =>
    rw [List.replicate_succ]
    simp only [executeToolsGo, hexec]
    have hcounts : countsIncr [] (name ++ ":" ++ takeChars raw 120) =
        [(name ++ ":" ++ takeChars raw 120, 1)] := by
      simp [countsIncr]
    have hget : countsGet [(name ++ ":" ++ takeChars raw 120, 1)]
        (name ++ ":" ++ takeChars raw 120) = 1 := by
      simp [countsGet, List.find?]
    rw [hcounts, hget]
    have hth : ¬ ERROR_REPEAT_THRESHOLD ≤ 1 := by decide
    simp only [if_neg hth, if_true, List.nil_append, Prod.snd]
    have hrun := failRunGo reg id name input raw hexec m 1
      [{ id := id, name := name, input := input }]
      [{ tool_call_id := id, content := raw, is_error := true }]
    cases hpair : executeToolsGo reg (List.replicate m (id, name, input))
      { all_calls := [{ id := id, name := name, input := input }],
        all_results := [{ tool_call_id := id, content := raw, is_error := true }],
        error_counts := [(name ++ ":" ++ takeChars raw 120, 1)] } with
    | mk blocks stF =>
      rw [hpair] at hrun
      have hfinal : stF = _ := hrun
      show stF.all_results = _
      rw [hfinal]
      rw [rangeMapSucc (fun c =>
        if ERROR_REPEAT_THRESHOLD ≤ c
        then ({ tool_call_id := id, content := hintText raw c, is_error := true } : ToolResult)
        else { tool_call_id := id, content := raw, is_error := true }) m]
      rw [if_neg hth]
      simp only [List.singleton_append]
      refine List.cons_eq_cons.mpr ⟨rfl, ?_⟩
      apply List.map_congr_left
      intro t _
      show (if ERROR_REPEAT_THRESHOLD ≤ 1 + t + 1
        then ({ tool_call_id := id, content := hintText raw (1 + t + 1), is_error := true } : ToolResult)
        else { tool_call_id := id, content := raw, is_error := true }) =
        (if ERROR_REPEAT_THRESHOLD ≤ t + 1 + 1
        then ({ tool_call_id := id, content := hintText raw (t + 1 + 1), is_error := true } : ToolResult)
        else { tool_call_id := id, content := raw, is_error := true })
      have harg : 1 + t + 1 = t + 1 + 1 := by omega
      rw [harg]

/-- A successful call of a tool removes every error-count entry whose
signature starts with that tool's name. -/
theorem success_clears_counts (reg : ToolRegistry) (id name : String)
    (input : JsonVal) (out : String) (st : ExecState) (sigKey : String)
    (hexec : reg.execute { id := id, name := name, input := input } =
      { tool_call_id := id, content := out, is_error := false })
    (hpre : startsWithStr sigKey (name ++ ":") = true) :
    countsGet (executeToolsGo reg [(id, name, input)] st).2.error_counts sigKey = 0 := by
  simp only [executeToolsGo, hexec]
  unfold countsGet
  have hnone : (st.error_counts.filter
      (fun p => !startsWithStr p.1 (name ++ ":"))).find? (fun p => p.1 == sigKey) = none := by
    rw [List.find?_eq_none]
    intro x hx
    rcases List.mem_filter.mp hx with ⟨-, hkeep⟩
    intro hx1
    have hx1' : x.1 = sigKey := by
      simpa using hx1
    rw [hx1', hpre] at hkeep
    simp at hkeep
  simp [hnone, executeToolsGo]

/-- C4 (amended): within one turn, failing results of the same tool with the
same first-120-character error content share one signature counter; in a
streak of `k` identical failures the stored result is the raw error for the
first `ERROR_REPEAT_THRESHOLD - 1` failures and the hint-wrapped error from
the `ERROR_REPEAT_THRESHOLD`-th (3rd) failure on — the change-strategy
marker first appears in the 3rd tool-result, not the 4th — and one
intervening successful call of that tool clears all signature counters for
that tool name. -/
theorem circuit_breaker_threshold_and_reset :
    (∀ (reg : ToolRegistry) (id name : String) (input : JsonVal) (raw : String)
        (k i : Nat),
      reg.execute { id := id, name := name, input := input } =
        { tool_call_id := id, content := raw, is_error := true } →
      containsSub raw hintMarker = false →
      i < k →
      ∃ r, (execute_tools reg (List.replicate k (ContentBlock.toolUse id name input))
              { all_calls := [], all_results := [], error_counts := [] }).2.all_results[i]?
            = some r ∧
        r.is_error = true ∧
        (containsSub r.content hintMarker = true ↔ ERROR_REPEAT_THRESHOLD ≤ i + 1) ∧
        (i + 1 < ERROR_REPEAT_THRESHOLD → r.content = raw) ∧
        (ERROR_REPEAT_THRESHOLD ≤ i + 1 → r.content = hintText raw (i + 1))) ∧
    (∀ (reg : ToolRegistry) (id name : String) (input : JsonVal) (out : String)
        (st : ExecState) (sigKey : String),
      reg.execute { id := id, name := name, input := input } =
        { tool_call_id := id, content := out, is_error := false } →
      startsWithStr sigKey (name ++ ":") = true →
      countsGet (executeToolsGo reg [(id, name, input)] st).2.error_counts sigKey = 0) := by
  constructor
  · intro reg id name input raw k i hexec hraw hik
    rw [failRun_results reg id name input raw hexec k]
    rw [List.getElem?_map]
    rw [List.getElem?_range hik]
    by_cases hth : ERROR_REPEAT_THRESHOLD ≤ i + 1
    · refine ⟨_, rfl, ?_⟩
      simp only [if_pos hth]
      exact ⟨trivial, by simp [hint_contains_marker, hth],
        fun hlt => absurd hth (by omega), fun _ => trivial⟩
    · refine ⟨_, rfl, ?_⟩
      simp only [if_neg hth]
      exact ⟨trivial, by simp [hraw, hth],
        fun _ => trivial, fun hge => absurd hge hth⟩
  · intro reg id name input out st sigKey hexec hpre
    exact success_clears_counts reg id name input out st sigKey hexec hpre

/-- Witness for C4 at concrete inputs: three identical `exec_run` failures
with content "boom" — the 3rd stored result carries the hint — and a
successful `exec_run` call clearing the `exec_run:boom` counter. -/
theorem circuit_breaker_threshold_and_reset_witness :
    (∃ r, (execute_tools (failingRegistry "exec_run" "boom")
            (List.replicate 3 (ContentBlock.toolUse "T" "exec_run" JsonVal.null))
            { all_calls := [], all_results := [], error_counts := [] }).2.all_results[2]?
          = some r ∧
      r.is_error = true ∧
      (containsSub r.content hintMarker = true ↔ ERROR_REPEAT_THRESHOLD ≤ 2 + 1) ∧
      (2 + 1 < ERROR_REPEAT_THRESHOLD → r.content = "boom") ∧
      (ERROR_REPEAT_THRESHOLD ≤ 2 + 1 → r.content = hintText "boom" (2 + 1))) ∧
    countsGet (executeToolsGo (succeedingRegistry "exec_run" "ok")
      [("T", "exec_run", JsonVal.null)]
      { all_calls := [], all_results := [],
        error_counts := [("exec_run:boom", 2)] }).2.error_counts "exec_run:boom" = 0 :=
  ⟨circuit_breaker_threshold_and_reset.1 (failingRegistry "exec_run" "boom")
      "T" "exec_run" JsonVal.null "boom" 3 2 (by decide) (by decide) (by decide),
   circuit_breaker_threshold_and_reset.2 (succeedingRegistry "exec_run" "ok")
      "T" "exec_run" JsonVal.null "ok"
      { all_calls := [], all_results := [], error_counts := [("exec_run:boom", 2)] }
      "exec_run:boom" (by decide) (by decide)⟩

/-- Counterexample to C4 as stated: in a streak of exactly
`ERROR_REPEAT_THRESHOLD` (3) identical `exec_run` failures with raw content
"boom", the first three tool-result contents are **not** all the raw error —
the 3rd already contains the change-strategy hint marker, i.e. the hint is
injected on the N-th failure, not the (N+1)-th. -/
theorem circuit_breaker_hint_offset_counterexample :
    ¬ hint_only_after_threshold
        (execute_tools (failingRegistry "exec_run" "boom")
          (List.replicate 3 (ContentBlock.toolUse "T" "exec_run" JsonVal.null))
          { all_calls := [], all_results := [], error_counts := [] }).2.all_results "boom" ∧
    ((execute_tools (failingRegistry "exec_run" "boom")
        (List.replicate 3 (ContentBlock.toolUse "T" "exec_run" JsonVal.null))
        { all_calls := [], all_results := [], error_counts := [] }).2.all_results[2]?).map
      (fun r => containsSub r.content hintMarker) = some true := by
  constructor
  · intro h
    have h2 := h 2 (by decide)
    revert h2
    decide
  · decide

/-! ### C2 — session deletion -/

/-- Counterexample to C2 as stated: "work" is a session of kind Main, yet
`Gateway::delete_session` deletes it (and its messages) without error — the
guard protects only the literal key "main", not the Main kind. -/
theorem main_kind_delete_counterexample :
    workRowEx.kind = "main" ∧
    db_get_session_by_key workGwEx.db "work" = some workRowEx ∧
    ¬ main_sessions_undeletable workGwEx ∧
    gateway_delete_session workGwEx "work" =
      .ok { db := { workDbEx with sessions := [mainRowEx], messages := [] },
            active_session_key := "main" } := by
  refine ⟨rfl, rfl, ?_, rfl⟩
  intro h
  obtain ⟨e, he⟩ := h "work" workRowEx rfl rfl
  rw [show gateway_delete_session workGwEx "work" =
    .ok { db := { workDbEx with sessions := [mainRowEx], messages := [] },
          active_session_key := "main" } from rfl] at he
  exact Except.noConfusion he

/-- C2 (amended): `delete_session` refuses exactly the literal key "main"
(and unknown keys); every other existing session — Main kind included — is
deleted together with its messages, while unrelated rows survive. -/
theorem delete_session_refuses_only_key_main :
    ∀ (gw : GatewayState) (key : String),
      (key = "main" →
        gateway_delete_session gw key = .error "Cannot delete the main session") ∧
      (key ≠ "main" → db_get_session_by_key gw.db key = none →
        gateway_delete_session gw key = .error ("Session not found: " ++ key)) ∧
      (∀ s, key ≠ "main" → db_get_session_by_key gw.db key = some s →
        ∃ gw', gateway_delete_session gw key = .ok gw' ∧
          (∀ r ∈ gw'.db.sessions, r.id ≠ s.id) ∧
          (∀ m ∈ gw'.db.messages, m.session_id ≠ s.id) ∧
          (∀ r ∈ gw.db.sessions, r.id ≠ s.id → r ∈ gw'.db.sessions) ∧
          (∀ m ∈ gw.db.messages, m.session_id ≠ s.id → m ∈ gw'.db.messages)) := by
  intro gw key
  refine ⟨?_, ?_, ?_⟩
  · intro hk
    simp [gateway_delete_session, hk]
  · intro hk hnone
    simp [gateway_delete_session, hk, hnone]
  · intro s hk hsome
    have hb : (key == "main") = false := by simp [hk]
    refine ⟨{ db := db_delete_session gw.db s.id,
              active_session_key := if gw.active_session_key == key then "main"
                                    else gw.active_session_key }, ?_, ?_, ?_, ?_, ?_⟩
    · simp [gateway_delete_session, hb, hsome]
    · intro r hr
      have hr2 : r ∈ gw.db.sessions.filter (fun r => r.id != s.id) := hr
      have := (List.mem_filter.mp hr2).2
      simpa using this
    · intro m hm
      have hm2 : m ∈ gw.db.messages.filter (fun m => m.session_id != s.id) := hm
      have := (List.mem_filter.mp hm2).2
      simpa using this
    · intro r hr hne
      show r ∈ gw.db.sessions.filter (fun r => r.id != s.id)
      exact List.mem_filter.mpr ⟨hr, by simpa using hne⟩
    · intro m hm hne
      show m ∈ gw.db.messages.filter (fun m => m.session_id != s.id)
      exact List.mem_filter.mpr ⟨hm, by simpa using hne⟩

/-- Witness for C2 (amended) at the concrete store: deleting "main" errors,
deleting "work" succeeds and removes its rows. -/
theorem delete_session_refuses_only_key_main_witness :
    gateway_delete_session workGwEx "main" =
      .error "Cannot delete the main session" ∧
    ∃ gw', gateway_delete_session workGwEx "work" = .ok gw' ∧
      (∀ r ∈ gw'.db.sessions, r.id ≠ workRowEx.id) ∧
      (∀ m ∈ gw'.db.messages, m.session_id ≠ workRowEx.id) ∧
      (∀ r ∈ workGwEx.db.sessions, r.id ≠ workRowEx.id → r ∈ gw'.db.sessions) ∧
      (∀ m ∈ workGwEx.db.messages, m.session_id ≠ workRowEx.id → m ∈ gw'.db.messages) :=
  ⟨(delete_session_refuses_only_key_main workGwEx "main").1 rfl,
   (delete_session_refuses_only_key_main workGwEx "work").2.2 workRowEx
     (by decide) rfl⟩

/-! ### C3 — subagent completion summary -/

/-- Counterexample to C3 as stated: after the child turn (final assistant
text "The answer is 42.") completes, `ListSubagents` shows the subagent
completed with the fixed summary "Task completed successfully.", not the
child's assistant text. -/
theorem subagent_summary_counterexample :
    ¬ subagent_summary_is_child_text subCompletedDbEx 0 1 "The answer is 42." ∧
    subagent_summary_is_child_text subCompletedDbEx 0 1 subagent_success_summary ∧
    subagent_success_summary ≠ "The answer is 42." := by
  refine ⟨?_, ?_, by decide⟩
  · intro h
    unfold subagent_summary_is_child_text at h
    revert h
    decide
  · unfold subagent_summary_is_child_text
    decide

theorem mem_insertCreatedDesc {x r : DbSessionRow} {l : List DbSessionRow} :
    x ∈ insertCreatedDesc r l ↔ x = r ∨ x ∈ l := by
  induction l with
  | nil => simp [insertCreatedDesc]
  | cons y ys ih =>
    unfold insertCreatedDesc
    by_cases h : r.created_at ≤ y.created_at
    · rw [if_pos h]
      simp only [List.mem_cons, ih]
      tauto
    · rw [if_neg h]
      simp only [List.mem_cons]

theorem mem_sortCreatedDesc {x : DbSessionRow} {l : List DbSessionRow} :
    x ∈ sortCreatedDesc l ↔ x ∈ l := by
  induction l with
  | nil => simp [sortCreatedDesc]
  | cons y ys ih =>
    unfold sortCreatedDesc
    rw [mem_insertCreatedDesc]
    simp only [List.mem_cons, ih]

/-- C3 (amended): when a spawned subagent's detached turn returns `Ok`, the
scheduler marks that session completed with the fixed summary
"Task completed successfully." — independent of the child's final assistant
text — and `ListSubagents` reports exactly that. -/
theorem subagent_completion_fixed_summary :
    ∀ (db : Db) (sub_id : Nat) (now : Int) (parent : Nat) (info : SubagentInfo),
      info ∈ db_get_subagents (on_subagent_turn_ok db sub_id now) parent →
      info.session_id = sub_id →
      info.status = .completed ∧ info.summary = some subagent_success_summary := by
  intro db sub_id now parent info hmem hid
  unfold db_get_subagents at hmem
  rcases List.mem_map.mp hmem with ⟨row, hrow, hinfo⟩
  have hrow' : row ∈ (on_subagent_turn_ok db sub_id now).sessions.filter
      (fun r => r.parent_id == some parent) := by
    have := mem_sortCreatedDesc.mp hrow
    exact this
  have hrow2 : row ∈ (on_subagent_turn_ok db sub_id now).sessions :=
    (List.mem_filter.mp hrow').1
  unfold on_subagent_turn_ok db_update_subagent_status at hrow2
  rcases List.mem_map.mp hrow2 with ⟨r0, _, hupd⟩
  by_cases hcase : (r0.id == sub_id) = true
  · rw [if_pos hcase] at hupd
    subst hupd
    rw [← hinfo]
    exact ⟨rfl, rfl⟩
  · rw [if_neg hcase] at hupd
    subst hupd
    rw [← hinfo] at hid
    simp only at hid
    exact absurd (by simp [hid] : (r0.id == sub_id) = true) hcase

/-- Witness for C3 (amended) at the concrete scenario. -/
theorem subagent_completion_fixed_summary_witness :
    subInfoEx.status = .completed ∧
    subInfoEx.summary = some subagent_success_summary :=
  subagent_completion_fixed_summary (db_append_message subSpawnDbEx childMsgEx)
    1 7 0 subInfoEx (by decide) (by decide)

/-! ### C5 — agent event emission order -/

/-- Counterexample to C5 as stated: a turn with two tool calls (matching
results) emits `Start T1, Start T2, Result T1, Result T2, TurnComplete` —
all starts first, then all results — so `Start T1` is not immediately
followed by its result and the claimed
`TextDelta* (Start Result)* TurnComplete` pattern fails, while the grouped
pattern holds. -/
theorem paired_event_order_counterexample :
    turnResEx.tool_calls.map ToolCall.id =
      turnResEx.tool_results.map ToolResult.tool_call_id ∧
    pairedProtocol (agent_emitted_events [] turnResEx turnMsgEx) = false ∧
    groupedProtocol (agent_emitted_events [] turnResEx turnMsgEx) = true := by
  refine ⟨by decide, by decide, by decide⟩

theorem groupedResults_spec (results : List ToolResult) (msg : Message) :
    groupedResults (results.map AgentToGateway.toolCallResult ++
      [AgentToGateway.turnComplete msg]) = true := by
  induction results with
  | nil => rfl
  | cons r rs ih => simpa [groupedResults] using ih

theorem groupedStarts_spec (calls : List ToolCall) (results : List ToolResult)
    (msg : Message) :
    groupedStarts (calls.map AgentToGateway.toolCallStart ++
      (results.map AgentToGateway.toolCallResult ++
        [AgentToGateway.turnComplete msg])) = true := by
  induction calls with
  | nil =>
    cases results with
    | nil => rfl
    | cons r rs =>
      simp only [List.map_cons, List.nil_append, List.cons_append]
      show groupedResults _ = true
      simpa [groupedResults] using groupedResults_spec rs msg
  | cons c cs ih => simpa [groupedStarts] using ih

/-- C5 (amended): for every turn the emitted sequence follows
`TextDelta*  ToolCallStart*  ToolCallResult*  TurnComplete` — every start
event for the turn precedes every result event, with TurnComplete last —
and only for turns with at most one tool call does the claimed
start-immediately-followed-by-result pairing also hold. -/
theorem agent_event_order_grouped :
    ∀ (deltas : List String) (tr : TurnResult) (msg : Message),
      groupedProtocol (agent_emitted_events deltas tr msg) = true ∧
      (tr.tool_calls = [] → tr.tool_results = [] →
        pairedProtocol (agent_emitted_events deltas tr msg) = true) ∧
      (∀ c r, tr.tool_calls = [c] → tr.tool_results = [r] →
        r.tool_call_id = c.id →
        pairedProtocol (agent_emitted_events deltas tr msg) = true) := by
  intro deltas tr msg
  refine ⟨?_, ?_, ?_⟩
  · unfold agent_emitted_events
    induction deltas with
    | nil =>
      simp only [List.map_nil, List.nil_append, List.append_assoc]
      cases hc : tr.tool_calls with
      | nil =>
        cases hr : tr.tool_results with
        | nil => rfl
        | cons r rs =>
          simp only [List.map_nil, List.map_cons, List.nil_append, List.cons_append]
          show groupedResults _ = true
          simpa [groupedResults] using groupedResults_spec rs msg
      | cons c cs =>
        simp only [List.map_cons, List.cons_append]
        show groupedStarts _ = true
        simpa [groupedStarts] using groupedStarts_spec cs tr.tool_results msg
    | cons d ds ih =>
      simpa [groupedProtocol] using ih
  · intro hc hr
    unfold agent_emitted_events
    rw [hc, hr]
    simp only [List.map_nil, List.nil_append, List.append_nil]
    induction deltas with
    | nil => rfl
    | cons d ds ih => simpa [pairedProtocol] using ih
  · intro c r hc hr hid
    unfold agent_emitted_events
    rw [hc, hr]
    simp only [List.map_cons, List.map_nil]
    induction deltas with
    | nil =>
      show pairedTail (AgentToGateway.toolCallStart c ::
        AgentToGateway.toolCallResult r :: [AgentToGateway.turnComplete msg]) = true
      simp [pairedTail, hid]
    | cons d ds ih => simpa [pairedProtocol] using ih

/-- Witness for C5 (amended) at concrete turns: the two-call turn satisfies
the grouped pattern; a one-call turn satisfies the paired pattern. -/
theorem agent_event_order_grouped_witness :
    groupedProtocol (agent_emitted_events ["hi"] turnResEx turnMsgEx) = true ∧
    pairedProtocol (agent_emitted_events ["hi"] turnResOneEx turnMsgOneEx) = true :=
  ⟨(agent_event_order_grouped ["hi"] turnResEx turnMsgEx).1,
   (agent_event_order_grouped ["hi"] turnResOneEx turnMsgOneEx).2.2 tcAEx trAEx
     rfl rfl rfl⟩

/-! ### C10 — memory-file name validation and containment -/

/-- Counterexample to C10 as stated: overwriting an existing memory file
first copies it to a `.bak` sibling, and `"MEMORY.md.bak"` does not end in
`.md` — so the operations do not touch only `.md` files (they do stay
directly inside the workspace). -/
theorem memory_backup_not_md_counterexample :
    ¬ memory_ops_touch_only_md wsEx ∧
    (write_memory_file wsEx memFsEx "MEMORY.md" "new").writes =
      [["ws", "MEMORY.md.bak"], ["ws", "MEMORY.md"]] ∧
    endsWithStr "MEMORY.md.bak" ".md" = false := by
  refine ⟨?_, by decide, by decide⟩
  intro h
  have h1 := (h memFsEx "MEMORY.md" "new").1 ["ws", "MEMORY.md.bak"] (by decide)
  obtain ⟨n, hq, hmd⟩ := h1
  have hn : n = "MEMORY.md.bak" := by
    have : (["ws", "MEMORY.md.bak"] : List String) = ["ws", n] := hq
    simpa using this.symm
  rw [hn] at hmd
  exact absurd hmd (by decide)

/-- C10 (amended): an invalid name (empty, containing '/' or '\\' or
"..", or not ending in ".md") makes both operations fail with no file read,
created or overwritten; for valid names the operations touch only
`workspace/name` and (for the write's backup) `workspace/name.bak` — both
directly inside the workspace, so no path traversal is possible — and
validity is exactly the stated name predicate. -/
theorem memory_file_validation_and_containment :
    (∀ name, validate_filename name = Except.ok () ↔
      (containsChar name '/' = false ∧ containsChar name '\\' = false ∧
       containsSub name ".." = false ∧ name ≠ "" ∧
       endsWithStr name ".md" = true)) ∧
    (∀ ws fs name content e, validate_filename name = Except.error e →
      write_memory_file ws fs name content =
        { result := .error e, fs := fs, reads := [], writes := [] } ∧
      read_memory_file ws fs name =
        { result := .error e, fs := fs, reads := [], writes := [] }) ∧
    (∀ ws fs name content q,
      q ∈ (write_memory_file ws fs name content).reads ++
          (write_memory_file ws fs name content).writes →
      q = ws ++ [name] ∨ q = ws ++ [name ++ ".bak"]) ∧
    (∀ ws fs name q,
      q ∈ (read_memory_file ws fs name).reads ++
          (read_memory_file ws fs name).writes →
      q = ws ++ [name]) := by
  refine ⟨?_, ?_, ?_, ?_⟩
  · intro name
    unfold validate_filename
    by_cases h1 : containsChar name '/' = true <;>
      by_cases h2 : containsChar name '\\' = true <;>
        by_cases h3 : containsSub name ".." = true <;>
          by_cases h4 : (name == "") = true <;>
            by_cases h5 : endsWithStr name ".md" = true <;>
              simp_all [Bool.not_eq_true]
  · intro ws fs name content e hval
    unfold write_memory_file read_memory_file
    rw [hval]
    exact ⟨rfl, rfl⟩
  · intro ws fs name content q hq
    unfold write_memory_file at hq
    cases hval : validate_filename name with
    | error e => rw [hval] at hq; simp at hq
    | ok u =>
      simp only [hval] at hq
      cases hread : fs_read_file fs (ws ++ [name]) with
      | some existing =>
        simp only [hread, List.mem_append, List.mem_cons,
          List.mem_singleton, List.not_mem_nil] at hq
        tauto
      | none =>
        simp only [hread, List.nil_append, List.mem_singleton,
          List.not_mem_nil, List.mem_append] at hq
        tauto
  · intro ws fs name q hq
    unfold read_memory_file at hq
    cases hval : validate_filename name with
    | error e => rw [hval] at hq; simp at hq
    | ok u =>
      simp only [hval] at hq
      cases hread : fs_read_file fs (ws ++ [name]) with
      | some content =>
        simp only [hread] at hq
        simpa using hq
      | none =>
        simp only [hread] at hq
        simpa using hq

/-- Witness for C10 (amended) at concrete names: "../etc/passwd" is
rejected untouched; the valid overwrite of MEMORY.md touches only the file
and its `.bak` sibling. -/
theorem memory_file_validation_and_containment_witness :
    (write_memory_file wsEx memFsEx "../etc/passwd" "x" =
      { result := .error "Invalid memory file name: ../etc/passwd",
        fs := memFsEx, reads := [], writes := [] }) ∧
    (["ws", "MEMORY.md.bak"] = wsEx ++ ["MEMORY.md"] ∨
     ["ws", "MEMORY.md.bak"] = wsEx ++ ["MEMORY.md" ++ ".bak"]) :=
  ⟨(memory_file_validation_and_containment.2.1 wsEx memFsEx "../etc/passwd" "x"
      "Invalid memory file name: ../etc/passwd" (by rfl)).1,
   memory_file_validation_and_containment.2.2.1 wsEx memFsEx "MEMORY.md" "new"
     ["ws", "MEMORY.md.bak"] (by decide)⟩

/-! ### C6 — observation coalescing -/

theorem map_eq_self_of {α : Type} (l : List α) (f : α → α)
    (h : ∀ x ∈ l, f x = x) : l.map f = l := by
  induction l with
  | nil => rfl
  | cons x xs ih =>
    rw [List.map_cons, h x (by simp), ih (fun y hy => h y (by simp [hy]))]

theorem obs_recent_match_false_of_no_match (kind : ObservationKind) (key : String)
    (h1 : Int) (r : ObsRow) (h : obs_matches kind key r = false) :
    obs_recent_match kind key h1 r = false := by
  unfold obs_matches at h
  unfold obs_recent_match
  rcases Bool.and_eq_false_iff.mp h with h | h <;> simp [h]

/-- When no row matches (kind, key) at all, `record_observation` inserts a
fresh row with count 1. -/
theorem record_observation_insert (db : Db) (kind : ObservationKind)
    (key : String) (v : Option String) (sid : Option String) (now : Int)
    (h : ∀ r ∈ db.observations, obs_matches kind key r = false) :
    db_record_observation db kind key v sid now =
      { db with observations := db.observations ++
          [{ ts := now, session_id := sid, kind := obsKindStr kind, key := key,
             value := v, count := 1, created_at := now }] } := by
  unfold db_record_observation
  have hfilter : db.observations.filter (obs_recent_match kind key (now - 3600)) = [] := by
    rw [List.filter_eq_nil_iff]
    intro r hr
    rw [obs_recent_match_false_of_no_match kind key (now - 3600) r (h r hr)]
    simp
  simp [hfilter]

/-- When the table is "clean prefix plus one matching row" and the call is
within one hour of that row, `record_observation` bumps only that row. -/
theorem record_observation_bump (db : Db) (kind : ObservationKind) (key : String)
    (v : Option String) (sid : Option String) (now : Int) (row : ObsRow)
    (hpre : ∀ r ∈ db.observations, obs_matches kind key r = false)
    (hkind : row.kind = obsKindStr kind) (hkey : row.key = key)
    (hts : now - row.ts < 3600) :
    db_record_observation { db with observations := db.observations ++ [row] }
      kind key v sid now =
      { db with observations := db.observations ++
          [{ row with count := row.count + 1, ts := now }] } := by
  unfold db_record_observation
  have hmatch : obs_recent_match kind key (now - 3600) row = true := by
    unfold obs_recent_match
    simp only [hkind, hkey, beq_self_eq_true, Bool.true_and, Bool.and_eq_true,
      decide_eq_true_eq]
    omega
  have hprefilter : db.observations.filter (obs_recent_match kind key (now - 3600)) = [] := by
    rw [List.filter_eq_nil_iff]
    intro r hr
    rw [obs_recent_match_false_of_no_match kind key (now - 3600) r (hpre r hr)]
    simp
  have hfilter : (db.observations ++ [row]).filter
      (obs_recent_match kind key (now - 3600)) = [row] := by
    rw [List.filter_append, hprefilter]
    simp [hmatch]
  have hmap : (db.observations ++ [row]).map (fun r =>
      if obs_recent_match kind key (now - 3600) r then
        { r with count := r.count + 1, ts := now }
      else r) =
      db.observations ++ [{ row with count := row.count + 1, ts := now }] := by
    rw [List.map_append]
    rw [map_eq_self_of db.observations _ (fun r hr => by
      rw [obs_recent_match_false_of_no_match kind key (now - 3600) r (hpre r hr)]
      simp)]
    simp [hmatch]
  show (if ((db.observations ++ [row]).filter
      (obs_recent_match kind key (now - 3600))).length == 0 then _ else _) = _
  rw [hfilter]
  simp only [List.length_singleton]
  rw [if_neg (by decide)]
  simp only [hmap]

/-- A run of further calls, each within the hour of the previous, keeps
bumping the single accumulated row. -/
theorem record_calls_coalesce (kind : ObservationKind) (key : String)
    (v : Option String) (sid : Option String) :
    ∀ (ts : List Int) (db : Db) (row : ObsRow),
      (∀ r ∈ db.observations, obs_matches kind key r = false) →
      row.kind = obsKindStr kind → row.key = key →
      List.Chain (fun a b => b - a < 3600) row.ts ts →
      (record_calls { db with observations := db.observations ++ [row] }
          kind key v sid ts).observations =
        db.observations ++
          [{ row with ts := ts.getLastD row.ts, count := row.count + ts.length }] := by
  intro ts
  induction ts with
  | nil =>
    intro db row hpre hkind hkey _
    simp [record_calls]
  | cons t ts ih =>
    intro db row hpre hkind hkey hchain
    rcases List.chain_cons.mp hchain with ⟨hstep, hrest⟩
    show (record_calls (db_record_observation
        { db with observations := db.observations ++ [row] } kind key v sid t)
        kind key v sid ts).observations = _
    rw [record_observation_bump db kind key v sid t row hpre hkind hkey hstep]
    rw [ih db { row with count := row.count + 1, ts := t } hpre hkind hkey hrest]
    simp only [List.getLastD_cons]
    refine congrArg (db.observations ++ [·]) ?_
    simp only [ObsRow.mk.injEq, and_true, true_and, List.length_cons]
    omega

/-- C6: N calls of `record_observation(k, key, ...)`, each within one hour
of the previous row's (bumped) timestamp, leave exactly one (k, key) row,
carrying count N and the timestamp of the last call — and a call more than
one hour after every existing (k, key) row's timestamp inserts a fresh row
with count 1 instead, leaving the stale rows untouched. -/
theorem record_observation_coalesces_within_hour :
    (∀ (db : Db) (kind : ObservationKind) (key : String) (v : Option String)
        (sid : Option String) (t0 : Int) (ts : List Int),
      (∀ r ∈ db.observations, obs_matches kind key r = false) →
      List.Chain (fun a b => b - a < 3600) t0 ts →
      (record_calls db kind key v sid (t0 :: ts)).observations =
        db.observations ++
          [{ ts := ts.getLastD t0, session_id := sid, kind := obsKindStr kind,
             key := key, value := v, count := 1 + ts.length, created_at := t0 }]) ∧
    (∀ (db : Db) (kind : ObservationKind) (key : String) (v : Option String)
        (sid : Option String) (now : Int),
      (∀ r ∈ db.observations, obs_matches kind key r = true →
        now - r.ts > 3600) →
      db_record_observation db kind key v sid now =
        { db with observations := db.observations ++
            [{ ts := now, session_id := sid, kind := obsKindStr kind, key := key,
               value := v, count := 1, created_at := now }] }) := by
  constructor
  · intro db kind key v sid t0 ts hclean hchain
    show (record_calls (db_record_observation db kind key v sid t0)
        kind key v sid ts).observations = _
    rw [record_observation_insert db kind key v sid t0 hclean]
    rw [record_calls_coalesce kind key v sid ts db
      { ts := t0, session_id := sid, kind := obsKindStr kind, key := key,
        value := v, count := 1, created_at := t0 } hclean rfl rfl hchain]
  · intro db kind key v sid now hstale
    unfold db_record_observation
    have hfilter : db.observations.filter (obs_recent_match kind key (now - 3600)) = [] := by
      rw [List.filter_eq_nil_iff]
      intro r hr
      by_cases hm : obs_matches kind key r = true
      · have hts := hstale r hr hm
        obtain ⟨h1, h2⟩ : (r.kind == obsKindStr kind) = true ∧ (r.key == key) = true := by
          simpa [obs_matches] using hm
        unfold obs_recent_match
        simp only [h1, h2, Bool.true_and, Bool.and_eq_true, decide_eq_true_eq]
        omega
      · have hfalse : obs_recent_match kind key (now - 3600) r = false :=
          obs_recent_match_false_of_no_match kind key (now - 3600) r (by simpa using hm)
        simp [hfalse]
    simp [hfilter]

/-- Witness for C6 at concrete inputs: three `tool_use`/`fs_read` calls at
t = 10000, 10100, 10200 coalesce into one row with count 3 and ts 10200;
a fourth call at t = 20000 (more than an hour later) starts a fresh row. -/
theorem record_observation_coalesces_within_hour_witness :
    (record_calls emptyDb .toolUse "fs_read" none (some "s1")
        [10000, 10100, 10200]).observations =
      [{ ts := 10200, session_id := some "s1", kind := "tool_use",
         key := "fs_read", value := none, count := 3, created_at := 10000 }] ∧
    db_record_observation (record_calls emptyDb .toolUse "fs_read" none
        (some "s1") [10000, 10100, 10200]) .toolUse "fs_read" none
        (some "s1") 20000 =
      { (record_calls emptyDb .toolUse "fs_read" none (some "s1")
          [10000, 10100, 10200]) with observations :=
        (record_calls emptyDb .toolUse "fs_read" none (some "s1")
          [10000, 10100, 10200]).observations ++
          [{ ts := 20000, session_id := some "s1", kind := "tool_use",
             key := "fs_read", value := none, count := 1, created_at := 20000 }] } := by
  constructor
  · have h := record_observation_coalesces_within_hour.1 emptyDb .toolUse
      "fs_read" none (some "s1") 10000 [10100, 10200] (by simp [emptyDb])
      (by constructor <;> [omega; (constructor <;> [omega; exact List.Chain.nil])])
    simpa using h
  · exact record_observation_coalesces_within_hour.2 _ .toolUse "fs_read" none
      (some "s1") 20000 (by decide)

/-! ### C7 — pipe close before TurnComplete -/

theorem getLast?_append_singleton {α : Type} (l : List α) (a : α) :
    (l ++ [a]).getLast? = some a := by
  rw [List.getLast?_concat]

theorem record_observation_preserves (db : Db) (kind : ObservationKind)
    (key : String) (v : Option String) (sid : Option String) (now : Int) :
    (db_record_observation db kind key v sid now).messages = db.messages ∧
    (db_record_observation db kind key v sid now).sessions = db.sessions := by
  simp only [db_record_observation]
  split <;> exact ⟨rfl, rfl⟩

theorem run_turn_loop_toolCallStart_some
    (handler : Db → ProcessAction → Db × ProcessResult)
    (session_id : Nat) (sid : String) (now : Int)
    (rest : List AgentToGateway) (st : TurnLoopState) (tc : ToolCall)
    (path : String)
    (hpath : (tc.input.get "path").bind JsonVal.asStr = some path) :
    run_turn_loop handler session_id sid now (.toolCallStart tc :: rest) st =
    run_turn_loop handler session_id sid now rest
      { db := db_record_observation
          (db_record_observation
            { st.db with audit_log := st.db.audit_log ++
              [{ ts := now, session_id := some sid, level := "info",
                 category := "tool", event := "tool_call_start",
                 summary := "Tool call: " ++ tc.name,
                 detail_json := some (renderJson tc.input) }] }
            .toolUse tc.name none (some sid) now)
          .pathAccess path (some tc.name) (some sid) now,
        bus := (st.bus ++ [.auditLog "info" "tool" "tool_call_start"
          ("Tool call: " ++ tc.name) (some (renderJson tc.input))]) ++
          [.toolCallStart tc],
        pipe_out := st.pipe_out } := by
  simp only [run_turn_loop, audit, hpath]

theorem run_turn_loop_toolCallStart_none
    (handler : Db → ProcessAction → Db × ProcessResult)
    (session_id : Nat) (sid : String) (now : Int)
    (rest : List AgentToGateway) (st : TurnLoopState) (tc : ToolCall)
    (hpath : (tc.input.get "path").bind JsonVal.asStr = none) :
    run_turn_loop handler session_id sid now (.toolCallStart tc :: rest) st =
    run_turn_loop handler session_id sid now rest
      { db := db_record_observation
          { st.db with audit_log := st.db.audit_log ++
            [{ ts := now, session_id := some sid, level := "info",
               category := "tool", event := "tool_call_start",
               summary := "Tool call: " ++ tc.name,
               detail_json := some (renderJson tc.input) }] }
          .toolUse tc.name none (some sid) now,
        bus := (st.bus ++ [.auditLog "info" "tool" "tool_call_start"
          ("Tool call: " ++ tc.name) (some (renderJson tc.input))]) ++
          [.toolCallStart tc],
        pipe_out := st.pipe_out } := by
  simp only [run_turn_loop, audit, hpath]

/-- C7: when the pipe closes before any terminal event, the turn-runner
loop publishes the synthetic Error last on the bus, persists no message,
and leaves every session's cumulative token counters untouched (the
request handler is only assumed not to append messages or change existing
sessions' counters, which covers `handle_process_request` and the
synchronous part of `handle_subagent_action`). -/
theorem pipe_close_no_persistence :
    ∀ (handler : Db → ProcessAction → Db × ProcessResult)
      (session_id : Nat) (sid : String) (now : Int)
      (events : List AgentToGateway) (st : TurnLoopState),
      (∀ db a, (handler db a).1.messages = db.messages) →
      (∀ db a i, sessionTokens db i ≠ none →
        sessionTokens (handler db a).1 i = sessionTokens db i) →
      (∀ ev ∈ events, isTerminalEvent ev = false) →
      (run_turn_loop handler session_id sid now events st).db.messages =
        st.db.messages ∧
      (∀ i, sessionTokens st.db i ≠ none →
        sessionTokens (run_turn_loop handler session_id sid now events st).db i =
          sessionTokens st.db i) ∧
      (run_turn_loop handler session_id sid now events st).bus.getLast? =
        some (.errorEvent "Agent disconnected unexpectedly") := by
  intro handler session_id sid now events
  induction events with
  | nil =>
    intro st hmsg htok hterm
    refine ⟨rfl, fun i _ => rfl, ?_⟩
    show ((st.bus ++ [AgentToGateway.auditLog "error" "ipc" "pipe_disconnected"
      "Agent disconnected unexpectedly" none]) ++
      [AgentToGateway.errorEvent "Agent disconnected unexpectedly"]).getLast? = _
    rw [getLast?_append_singleton]
  | cons ev rest ih =>
    intro st hmsg htok hterm
    have hev := hterm ev (List.mem_cons_self ev rest)
    have hrest : ∀ e ∈ rest, isTerminalEvent e = false :=
      fun e he => hterm e (List.mem_cons_of_mem ev he)
    cases ev with
    | textDelta c =>
      obtain ⟨ihm, iht, ihb⟩ := ih
        ⟨st.db, st.bus ++ [.textDelta c], st.pipe_out⟩ hmsg htok hrest
      exact ⟨ihm, iht, ihb⟩
    | toolCallStart tc =>
      cases hpath : (tc.input.get "path").bind JsonVal.asStr with
      | some path =>
        have hstep := run_turn_loop_toolCallStart_some handler session_id sid now
          rest st tc path hpath
        rw [hstep]
        set db3 := db_record_observation
          (db_record_observation
            { st.db with audit_log := st.db.audit_log ++
              [{ ts := now, session_id := some sid, level := "info",
                 category := "tool", event := "tool_call_start",
                 summary := "Tool call: " ++ tc.name,
                 detail_json := some (renderJson tc.input) }] }
            .toolUse tc.name none (some sid) now)
          .pathAccess path (some tc.name) (some sid) now with hdb3
        have hm3 : db3.messages = st.db.messages := by
          rw [hdb3]
          rw [(record_observation_preserves _ _ _ _ _ _).1,
            (record_observation_preserves _ _ _ _ _ _).1]
        have hs3 : db3.sessions = st.db.sessions := by
          rw [hdb3]
          rw [(record_observation_preserves _ _ _ _ _ _).2,
            (record_observation_preserves _ _ _ _ _ _).2]
        obtain ⟨ihm, iht, ihb⟩ := ih
          ⟨db3,
           (st.bus ++ [.auditLog "info" "tool" "tool_call_start"
             ("Tool call: " ++ tc.name) (some (renderJson tc.input))]) ++
             [.toolCallStart tc],
           st.pipe_out⟩ hmsg htok hrest
        refine ⟨ihm.trans hm3, ?_, ihb⟩
        intro i hi
        have htoks : sessionTokens db3 i = sessionTokens st.db i := by
          unfold sessionTokens
          rw [hs3]
        rw [iht i (by rw [htoks]; exact hi), htoks]
      | none =>
        have hstep := run_turn_loop_toolCallStart_none handler session_id sid now
          rest st tc hpath
        rw [hstep]
        set db2 := db_record_observation
          { st.db with audit_log := st.db.audit_log ++
            [{ ts := now, session_id := some sid, level := "info",
               category := "tool", event := "tool_call_start",
               summary := "Tool call: " ++ tc.name,
               detail_json := some (renderJson tc.input) }] }
          .toolUse tc.name none (some sid) now with hdb2
        have hm2 : db2.messages = st.db.messages := by
          rw [hdb2, (record_observation_preserves _ _ _ _ _ _).1]
        have hs2 : db2.sessions = st.db.sessions := by
          rw [hdb2, (record_observation_preserves _ _ _ _ _ _).2]
        obtain ⟨ihm, iht, ihb⟩ := ih
          ⟨db2,
           (st.bus ++ [.auditLog "info" "tool" "tool_call_start"
             ("Tool call: " ++ tc.name) (some (renderJson tc.input))]) ++
             [.toolCallStart tc],
           st.pipe_out⟩ hmsg htok hrest
        refine ⟨ihm.trans hm2, ?_, ihb⟩
        intro i hi
        have htoks : sessionTokens db2 i = sessionTokens st.db i := by
          unfold sessionTokens
          rw [hs2]
        rw [iht i (by rw [htoks]; exact hi), htoks]
    | toolCallResult r =>
      obtain ⟨ihm, iht, ihb⟩ := ih
        ⟨{ st.db with audit_log := st.db.audit_log ++
            [{ ts := now, session_id := some sid, level := "info",
               category := "tool", event := "tool_call_result",
               summary := "Tool result (" ++
                 (if r.is_error then "error" else "success") ++ "): " ++
                 toString r.content.length ++ " chars",
               detail_json := none }] },
         (st.bus ++ [.auditLog "info" "tool" "tool_call_result"
           ("Tool result (" ++ (if r.is_error then "error" else "success") ++
             "): " ++ toString r.content.length ++ " chars") none]) ++
           [.toolCallResult r],
         st.pipe_out⟩ hmsg htok hrest
      exact ⟨ihm, iht, ihb⟩
    | turnComplete m => simp [isTerminalEvent] at hev
    | errorEvent m => simp [isTerminalEvent] at hev
    | auditLog l c e su d =>
      obtain ⟨ihm, iht, ihb⟩ := ih
        ⟨st.db, st.bus ++ [.auditLog l c e su d], st.pipe_out⟩ hmsg htok hrest
      exact ⟨ihm, iht, ihb⟩
    | processRequest request_id action =>
      obtain ⟨ihm, iht, ihb⟩ := ih
        ⟨(handler st.db action).1, st.bus,
         st.pipe_out ++
           [.processResponse request_id (handler st.db action).2]⟩ hmsg htok hrest
      refine ⟨ihm.trans (hmsg st.db action), ?_, ihb⟩
      intro i hi
      have h1 : sessionTokens (handler st.db action).1 i = sessionTokens st.db i :=
        htok st.db action i hi
      show sessionTokens (run_turn_loop handler session_id sid now rest
        ⟨(handler st.db action).1, st.bus,
         st.pipe_out ++ [.processResponse request_id
           (handler st.db action).2]⟩).db i = sessionTokens st.db i
      rw [iht i (by rw [h1]; exact hi), h1]
    | question qid q c b =>
      obtain ⟨ihm, iht, ihb⟩ := ih
        ⟨st.db, st.bus ++ [.question qid q c b], st.pipe_out⟩ hmsg htok hrest
      exact ⟨ihm, iht, ihb⟩
    | progress su =>
      obtain ⟨ihm, iht, ihb⟩ := ih
        ⟨st.db, st.bus ++ [.progress su], st.pipe_out⟩ hmsg htok hrest
      exact ⟨ihm, iht, ihb⟩

/-- Witness for C7 at a concrete run: one text delta, then the pipe closes;
nothing is persisted, session 1/0 token counters are untouched, the bus
ends with the synthetic Error. -/
theorem pipe_close_no_persistence_witness :
    (run_turn_loop trivialHandler 0 "0" 100 [.textDelta "Hi"]
      ⟨workDbEx, [], []⟩).db.messages = workDbEx.messages ∧
    sessionTokens (run_turn_loop trivialHandler 0 "0" 100 [.textDelta "Hi"]
      ⟨workDbEx, [], []⟩).db 0 = sessionTokens workDbEx 0 ∧
    (run_turn_loop trivialHandler 0 "0" 100 [.textDelta "Hi"]
      ⟨workDbEx, [], []⟩).bus.getLast? =
      some (.errorEvent "Agent disconnected unexpectedly") := by
  obtain ⟨h1, h2, h3⟩ := pipe_close_no_persistence trivialHandler 0 "0" 100
    [.textDelta "Hi"] ⟨workDbEx, [], []⟩ (fun _ _ => rfl) (fun _ _ _ _ => rfl)
    (by
      intro ev hev
      simp only [List.mem_singleton] at hev
      rw [hev]
      rfl)
  exact ⟨h1, h2 0 (by decide), h3⟩

/-! ### C9 — subagents cannot spawn subagents -/

theorem tool_name_mem_of_mem_filtered {names disabled : List String}
    {impls : String → JsonVal → Except String String} {t : Tool}
    (ht : t ∈ (names.filter (fun n => !disabled.contains n)).map
      (fun n => Tool.mk n (impls n))) :
    disabled.contains t.name = false := by
  rcases List.mem_map.mp ht with ⟨n, hn, rfl⟩
  have h2 := (List.mem_filter.mp hn).2
  simpa using h2

theorem with_default_tools_no_spawn (policies : List PathPolicy)
    (disabled : List String) (bridge : Option Unit)
    (impls : String → JsonVal → Except String String)
    (hx : "session_spawn" ∈ disabled) :
    ∀ t ∈ (with_default_tools policies disabled bridge impls).tools,
      t.name ≠ "session_spawn" := by
  intro t ht hname
  have hcontains : disabled.contains t.name = false := by
    unfold with_default_tools at ht
    cases bridge with
    | none =>
      exact tool_name_mem_of_mem_filtered ht
    | some u =>
      rcases List.mem_append.mp ht with h | h
      · exact tool_name_mem_of_mem_filtered h
      · exact tool_name_mem_of_mem_filtered h
  rw [hname] at hcontains
  have : disabled.contains "session_spawn" = true := by
    simpa using hx
  rw [this] at hcontains
  exact Bool.noConfusion hcontains

theorem with_default_tools_get_spawn_none (policies : List PathPolicy)
    (disabled : List String) (bridge : Option Unit)
    (impls : String → JsonVal → Except String String)
    (hx : "session_spawn" ∈ disabled) :
    (with_default_tools policies disabled bridge impls).get "session_spawn" = none := by
  unfold ToolRegistry.get
  apply List.find?_eq_none.mpr
  intro t ht
  have := with_default_tools_no_spawn policies disabled bridge impls hx t ht
  simpa using this

/-- C9 evidence: the scheduler half of the claim is real — the pushed
disabled list always contains `session_spawn`, so the registry of a
scheduler-started subagent turn (session_kind "subagent",
`subagent_disabled_tools base`) cannot resolve that tool.  But the depth
bound fails on the user-turn path: `switch_session` accepts the subagent
key with no kind check, `send_turn_session_kind` classifies the subagent
row as "main" (because `row_to_session` hard-codes `SessionKind::Main`),
that turn's orchestrator registry resolves `session_spawn`, and the
resulting spawn reaches `sched3DbEx`, where subagent id 2 has the
subagent id 1 as its parent — depth 2. -/
theorem subagent_depth_violation_via_user_turn :
    (∀ base : List String, "session_spawn" ∈ subagent_disabled_tools base) ∧
    (∀ (base : List String) (policies : List PathPolicy)
        (impls : String → JsonVal → Except String String),
      (registry_for_turn "subagent" policies (subagent_disabled_tools base)
        impls).get "session_spawn" = none) ∧
    subRowEx.kind = "subagent" ∧
    send_turn_session_kind subRowEx.key subRowEx = "main" ∧
    ((registry_for_turn (send_turn_session_kind subRowEx.key subRowEx) [] []
        okImpls).get "session_spawn").isSome = true ∧
    Relation.ReflTransGen (SchedStep [] [] okImpls) emptyDb sched3DbEx ∧
    ¬ sessions_depth_le_one sched3DbEx := by
  refine ⟨?_, ?_, rfl, rfl, rfl, ?_, ?_⟩
  · intro base
    simp [subagent_disabled_tools]
  · intro base policies impls
    unfold registry_for_turn
    rw [show (("subagent" : String) == "main") = false from rfl]
    simp only [if_neg Bool.false_ne_true]
    exact with_default_tools_get_spawn_none policies (subagent_disabled_tools base)
      (some ()) impls (by simp [subagent_disabled_tools])
  · have step1 : SchedStep [] [] okImpls emptyDb sched1DbEx :=
      SchedStep.createMain emptyDb 0 "main" "m" 0 (by simp [emptyDb])
    have step2 : SchedStep [] [] okImpls sched1DbEx sched2DbEx :=
      SchedStep.userTurnSpawn sched1DbEx (db_create_session emptyDb 0 "main" "m" 0).2
        (by decide) "m" "L" "T" 1 1 (by decide) (by decide)
    have step3 : SchedStep [] [] okImpls sched2DbEx sched3DbEx :=
      SchedStep.userTurnSpawn sched2DbEx subRowEx
        (by decide) "m" "L2" "T2" 2 2 (by decide) (by decide)
    exact Relation.ReflTransGen.tail
      (Relation.ReflTransGen.tail (Relation.ReflTransGen.single step1) step2) step3
  · intro h
    have h2 := h subRow2Ex (by decide) (by decide) subRowEx (by decide) (by decide)
    exact absurd h2 (by decide)

end Batchismo
